import Mathlib

/-!
Shallow embedding of the event-segmentation core of
`preprocess_extract_segments.py`.

The arterial-pressure track is a sequence of samples (a sample may be
not-a-number, modelled as `none`) together with a sample count and a
sample rate.  `extract_segments` runs four passes over the track:

1. first pass: find the live start of the track and all IOH events;
2. second pass: find non-overlapping 30-minute clean windows;
3. third pass: positive (pre-event) 60-second segments;
4. fourth pass: negative segments from clean windows.

The Python loops are embedded as fuel-based structural recursions; the
fuel is chosen large enough that it never runs out on the actual loop
(the cursor strictly increases at every iteration).  The Python variable
`j`, which is assigned only inside the first-pass recovery search and is
read again by the second pass, is modelled as an `Option Nat` threaded
through both passes; reading it while it is `none` corresponds to a
Python `NameError` and makes the second pass return `Except.error`.
-/

namespace Seg

/-- Arterial track: sample index to value (`none` models a NaN gap),
together with the total number of samples. -/
structure Track where
  samples : Nat → Option ℚ
  numSamples : Nat

/-- Mirrors `int(len(abp) / ABP_ECG_SRATE_HZ)`. -/
def trackLengthSeconds (tr : Track) (srate : Nat) : Nat :=
  tr.numSamples / srate

/-- Sum and count of the non-NaN samples among `n` consecutive samples
starting at `idx` (accumulator-passing loop, mirroring what
`np.nansum` / the non-NaN count of a slice compute). -/
def sliceSumCountGo (tr : Track) : Nat → Nat → ℚ → Nat → ℚ × Nat
  | 0, _, s, c => (s, c)
  | n+1, idx, s, c =>
    match tr.samples idx with
    | none => sliceSumCountGo tr n (idx+1) s c
    | some v => sliceSumCountGo tr n (idx+1) (s+v) (c+1)

/-- Mirrors `np.nanmean(abp[lo:hi])`: the mean of the non-NaN samples of
the slice, `none` (NaN) when the slice holds no numeric sample.  Python
slicing clips the bounds at the array length. -/
def nanmean (tr : Track) (lo hi : Nat) : Option ℚ :=
  let lo' := min lo tr.numSamples
  let hi' := min hi tr.numSamples
  let sc := sliceSumCountGo tr (hi' - lo') lo' 0 0
  if sc.2 = 0 then none else some (sc.1 / (sc.2 : ℚ))

/-- Mirrors `np.nanmean(abp[lo:hi]) >= c`; NaN compares false. -/
def meanGE (tr : Track) (lo hi : Nat) (c : ℚ) : Bool :=
  match nanmean tr lo hi with
  | none => false
  | some m => decide (c ≤ m)

/-- Mirrors `np.nanmean(abp[lo:hi]) < c`; NaN compares false. -/
def meanLT (tr : Track) (lo hi : Nat) (c : ℚ) : Bool :=
  match nanmean tr lo hi with
  | none => false
  | some m => decide (m < c)

/-- Result state of the first pass: the recorded IOH events, the
optional live-start index, the `started` flag, and the last value taken
by the Python loop variable `j` (`none` when `j` was never assigned). -/
structure FirstPassState where
  iohEvents : List (Nat × Nat)
  trackStartIndex : Option Nat
  started : Bool
  jVar : Option Nat
deriving DecidableEq, Repr

/-- The recovery search `for j in range(lo, hi)` of the first pass:
look backward one minute from `j`; at the first `j` whose trailing
window has mean at least 65 the event end is `j - 1`.  Returns the
found end (or `none`) and the last value bound to `j` (the incoming
value when the range is empty). -/
def findRecoveryGo (tr : Track) (srate : Nat) : Nat → Nat → Option Nat → Option Nat × Option Nat
  | 0, _, last => (none, last)
  | fuel+1, j, _ =>
    if meanGE tr ((j - 60) * srate) (j * srate) 65 then
      (some (j - 1), some j)
    else
      findRecoveryGo tr srate fuel (j + 1) (some j)

/-- Runs the recovery search over `range(lo, hi)`. -/
def findRecovery (tr : Track) (srate : Nat) (lo hi : Nat) (j0 : Option Nat) :
    Option Nat × Option Nat :=
  findRecoveryGo tr srate (hi - lo) lo j0

/-- Body of the first-pass `while i < track_length_seconds - 60` loop.
Before the track is live, a window with mean at least 65 sets
`started` and `trackStartIndex`; once live, a window with mean below 65
starts an event whose end is found by `findRecovery`; an event with no
recovery before track end is abandoned and the loop breaks; a recorded
event resumes the scan at its end plus one. -/
def firstPassGo (tr : Track) (srate L : Nat) : Nat → Nat → FirstPassState → FirstPassState
  | 0, _, st => st
  | fuel+1, i, st =>
    if i + 60 < L then
      if st.started then
        if meanLT tr (i * srate) ((i+60) * srate) 65 then
          match findRecovery tr srate (i + 60) L st.jVar with
          | (none, j2) => { st with jVar := j2 }
          | (some segEnd, j2) =>
            firstPassGo tr srate L fuel (segEnd + 1)
              { st with iohEvents := st.iohEvents ++ [(i, segEnd)], jVar := j2 }
        else
          firstPassGo tr srate L fuel (i+1) st
      else
        if meanGE tr (i * srate) ((i+60) * srate) 65 then
          firstPassGo tr srate L fuel (i+1)
            { st with started := true, trackStartIndex := some i }
        else
          firstPassGo tr srate L fuel (i+1) st
    else st

/-- The whole first pass of `extract_segments`. -/
def firstPass (tr : Track) (srate : Nat) : FirstPassState :=
  let L := trackLengthSeconds tr srate
  firstPassGo tr srate L L 0 ⟨[], none, false, none⟩

/-- The three-way interval test written inline (three times) in
`extract_segments`: case 1, `a` starts during `b`; case 2, `a` ends
during `b`; case 3, `b` occurs entirely inside of `a`.  Arguments are
integers because the third pass compares candidate starts that may be
negative. -/
def overlapsCode (a b : ℤ × ℤ) : Bool :=
  (b.1 ≤ a.1 && a.1 < b.2) || (b.1 ≤ a.2 && a.2 < b.2) || (a.1 < b.1 && b.2 < a.2)

/-- Modelled from the spec: genuine intersection of two half-open
integer intervals, the notion the specification says `overlaps` should
decide ("returns true if two half-open intervals intersect").  Kept
separate from `overlapsCode` so the two can be compared. -/
def halfOpenIntersects (a b : ℤ × ℤ) : Prop :=
  a.1 < b.2 ∧ b.1 < a.2

instance (a b : ℤ × ℤ) : Decidable (halfOpenIntersects a b) := by
  unfold halfOpenIntersects
  infer_instance

/-- The `for event in iohEvents` scan of the second pass: `latestEnd`
is overwritten by the end of every overlapping event, so it holds the
end of the last overlapping event in list order (`none` when no overlap
was found, in which case the Python `overlapFound` flag is false). -/
def overlapScan (events : List (Nat × Nat)) (a : ℤ × ℤ) : Option Nat :=
  events.foldl (fun st e => if overlapsCode a ((e.1 : ℤ), (e.2 : ℤ)) then some e.2 else st) none

/-- Body of the second-pass `while i < track_length_seconds - 1800`
loop.  A window overlapping an IOH event fast-forwards the cursor past
the latest overlapping end; otherwise a window with mean at least 75 is
re-checked through the stale loop variable `j` of the first pass
(`Except.error` models the Python `NameError` when `j` was never
assigned) and recorded only when the stale window `(j - 1800, j)`
overlaps no event. -/
def secondPassGo (tr : Track) (srate L : Nat) (events : List (Nat × Nat)) (jVar : Option Nat) :
    Nat → Nat → List (Nat × Nat) → Except Unit (List (Nat × Nat))
  | 0, _, acc => .ok acc
  | fuel+1, i, acc =>
    if i + 1800 < L then
      match overlapScan events ((i : ℤ), ((i + 1800 : Nat) : ℤ)) with
      | some latestEnd => secondPassGo tr srate L events jVar fuel (latestEnd + 1) acc
      | none =>
        if meanGE tr (i * srate) ((i + 1800) * srate) 75 then
          match jVar with
          | none => .error ()
          | some j =>
            match overlapScan events ((j : ℤ) - 1800, (j : ℤ)) with
            | some _ => secondPassGo tr srate L events jVar fuel (i + 10) acc
            | none =>
              secondPassGo tr srate L events jVar fuel (i + 1800 + 1) (acc ++ [(i, i + 1800)])
        else
          secondPassGo tr srate L events jVar fuel (i + 10) acc
    else .ok acc

/-- The whole second pass: the cursor starts at the live start found by
the first pass (0 when the track never went live). -/
def secondPass (tr : Track) (srate : Nat) (events : List (Nat × Nat))
    (trackStartIndex : Nat) (jVar : Option Nat) : Except Unit (List (Nat × Nat)) :=
  let L := trackLengthSeconds tr srate
  secondPassGo tr srate L events jVar L trackStartIndex []

/-- Configured lead times in minutes (`ALL_PREDICTION_WINDOWS`). -/
def ALL_PREDICTION_WINDOWS : List Nat := [3, 5, 10, 15]

/-- Rejection chain of the third pass for one candidate positive
segment: reject a start before the recording, a start before the live
start, or a candidate that overlaps the previous IOH event. -/
def acceptPositive (trackStartIndex : Nat) (prev : Option (Nat × Nat)) (s en : ℤ) : Bool :=
  if s < 0 then false
  else if s < (trackStartIndex : ℤ) then false
  else
    match prev with
    | none => true
    | some p => !(overlapsCode (s, en) ((p.1 : ℤ), (p.2 : ℤ)))

/-- Third-pass loop over the IOH events, threading the previous event
(the Python code reads `iohEvents[i - 1]` when `i > 0`).  For each event
and each configured lead time, the candidate segment starts `lead * 60`
seconds before the event and is 60 seconds long. -/
def thirdPassGo (trackStartIndex : Nat) : Option (Nat × Nat) → List (Nat × Nat) → List (ℤ × ℤ × Nat)
  | _, [] => []
  | prev, e :: rest =>
    (ALL_PREDICTION_WINDOWS.filterMap (fun (pw : Nat) =>
      let s : ℤ := (e.1 : ℤ) - (pw : ℤ) * 60
      let en : ℤ := s + 60
      if acceptPositive trackStartIndex prev s en then
        some (Prod.mk s (Prod.mk en pw))
      else none))
    ++ thirdPassGo trackStartIndex (some e) rest

/-- The whole third pass (positive segments `(start, end, leadMinutes)`). -/
def thirdPass (events : List (Nat × Nat)) (trackStartIndex : Nat) : List (ℤ × ℤ × Nat) :=
  thirdPassGo trackStartIndex none events

/-- Fourth pass: three one-minute negative segments per clean window,
at 600, 900 and 1200 seconds past the window start, in that order. -/
def fourthPassGo : List (Nat × Nat) → List (Nat × Nat)
  | [] => []
  | w :: rest =>
    [(w.1 + 600, w.1 + 600 + 60), (w.1 + 900, w.1 + 900 + 60), (w.1 + 1200, w.1 + 1200 + 60)]
    ++ fourthPassGo rest

/-- Persistence collaborator state: the set of per-case output markers
(the segment folders) and the persisted segment artifacts
`(caseid, start, leadMinutes, isPositive)`. -/
structure PersistState where
  markers : List Nat
  files : List (Nat × ℤ × Nat × Bool)
deriving DecidableEq, Repr

/-- Mirrors `areCaseSegmentsCached`: the marker folder exists. -/
def areCaseSegmentsCached (st : PersistState) (caseid : Nat) : Bool :=
  decide (caseid ∈ st.markers)

/-- Mirrors `saveCaseSegments`: exit early when no segment was found
(leaving no marker), exit early when the marker folder already exists,
otherwise create the marker folder and write one artifact per segment. -/
def saveCaseSegments (st : PersistState) (caseid : Nat)
    (pos : List (ℤ × ℤ × Nat)) (neg : List (Nat × Nat)) : PersistState :=
  if pos = [] ∧ neg = [] then st
  else if caseid ∈ st.markers then st
  else
    { markers := caseid :: st.markers,
      files := st.files ++ pos.map (fun p => (caseid, p.1, p.2.2, true))
                        ++ neg.map (fun n => (caseid, (n.1 : ℤ), 0, false)) }

/-- Passes two to four of `extract_segments`, taking the first-pass
state as input (the fixed-up `trackStartIndex` defaults to 0 when the
track never went live). -/
def extractFromFirstPass (tr : Track) (srate : Nat) (fp : FirstPassState) :
    Except Unit (List (ℤ × ℤ × Nat) × List (Nat × Nat)) :=
  match secondPass tr srate fp.iohEvents (fp.trackStartIndex.getD 0) fp.jVar with
  | .error e => .error e
  | .ok cleanEvents =>
    .ok (thirdPass fp.iohEvents (fp.trackStartIndex.getD 0), fourthPassGo cleanEvents)

/-- The four passes of `extract_segments` for one case, producing the
positive and negative segment lists (or the Python `NameError` of the
second pass). -/
def extractSegmentsCase (tr : Track) (srate : Nat) :
    Except Unit (List (ℤ × ℤ × Nat) × List (Nat × Nat)) :=
  extractFromFirstPass tr srate (firstPass tr srate)

/-- Per-case body of the `extract_segments` main loop: skip a case
whose segments are already cached, otherwise run the four passes and
hand the segments to the persistence collaborator. -/
def processCase (tr : Track) (srate : Nat) (caseid : Nat) (st : PersistState) :
    Except Unit PersistState :=
  if areCaseSegmentsCached st caseid then .ok st
  else
    match extractSegmentsCase tr srate with
    | .error e => .error e
    | .ok pn => .ok (saveCaseSegments st caseid pn.1 pn.2)

/-- Piecewise-constant track used by the concrete scenarios: value `v1`
on `[0, a)`, `v2` on `[a, b)`, `v3` on `[b, len)`, at one sample per
second. -/
def stepTrack (a b : Nat) (v1 v2 v3 : ℚ) (len : Nat) : Track :=
  ⟨fun s => if s < a then some v1 else if s < b then some v2 else some v3, len⟩

/-- Constant track at one sample per second. -/
def constTrack (v : ℚ) (len : Nat) : Track :=
  ⟨fun _ => some v, len⟩

/-- Scenario 1 of the specification: 3600 seconds, mean pressure 70 on
`[0, 300)`, 50 on `[300, 420)`, 70 on `[420, 3600)`. -/
def scenario1 : Track := stepTrack 300 420 70 50 70 3600

/-- Track exhibiting the stale-variable defect of the second pass: 100
on `[0, 1840)`, 0 on `[1840, 1900)`, 100 on `[1900, 1940)`. -/
def staleTrack : Track := stepTrack 1840 1900 100 0 100 1940

/-- Empty arterial track (zero samples). -/
def emptyTrack : Track := constTrack 0 0

/-- Splitting a slice sum at an intermediate point. -/
lemma sliceSumCountGo_append (tr : Track) (n : Nat) : ∀ (m idx : Nat) (s : ℚ) (c : Nat),
    sliceSumCountGo tr (m + n) idx s c =
      sliceSumCountGo tr n (idx + m)
        (sliceSumCountGo tr m idx s c).1 (sliceSumCountGo tr m idx s c).2 := by
  intro m
  induction m with
  | zero => intro idx s c; simp [sliceSumCountGo]
  | succ m ih =>
    intro idx s c
    have h : m + 1 + n = (m + n) + 1 := by omega
    rw [h]
    cases hs : tr.samples idx with
    | none =>
      rw [show sliceSumCountGo tr (m + n + 1) idx s c
            = sliceSumCountGo tr (m + n) (idx + 1) s c by simp [sliceSumCountGo, hs],
          show sliceSumCountGo tr (m + 1) idx s c
            = sliceSumCountGo tr m (idx + 1) s c by simp [sliceSumCountGo, hs],
          ih (idx + 1) s c, show idx + 1 + m = idx + (m + 1) by omega]
    | some v =>
      rw [show sliceSumCountGo tr (m + n + 1) idx s c
            = sliceSumCountGo tr (m + n) (idx + 1) (s + v) (c + 1) by simp [sliceSumCountGo, hs],
          show sliceSumCountGo tr (m + 1) idx s c
            = sliceSumCountGo tr m (idx + 1) (s + v) (c + 1) by simp [sliceSumCountGo, hs],
          ih (idx + 1) (s + v) (c + 1), show idx + 1 + m = idx + (m + 1) by omega]

/-- Slice sum over a region where every sample is the constant `v`. -/
lemma sliceSumCountGo_const (tr : Track) (v : ℚ) : ∀ (n idx : Nat) (s : ℚ) (c : Nat),
    (∀ k, idx ≤ k → k < idx + n → tr.samples k = some v) →
    sliceSumCountGo tr n idx s c = (s + (n : ℚ) * v, c + n) := by
  intro n
  induction n with
  | zero => intro idx s c _; simp [sliceSumCountGo]
  | succ n ih =>
    intro idx s c h
    have hs : tr.samples idx = some v := h idx (le_refl idx) (by omega)
    rw [show sliceSumCountGo tr (n + 1) idx s c
          = sliceSumCountGo tr n (idx + 1) (s + v) (c + 1) by simp [sliceSumCountGo, hs],
        ih (idx + 1) (s + v) (c + 1) (fun k hk1 hk2 => h k (by omega) (by omega))]
    rw [Prod.mk.injEq]
    refine ⟨by push_cast; ring, by omega⟩

/-- Mean of a window split at `m` into two constant regions. -/
lemma nanmean_two_const (tr : Track) (lo m hi : Nat) (vL vR : ℚ)
    (h1 : lo ≤ m) (h2 : m ≤ hi) (hlo : lo < hi) (hlen : hi ≤ tr.numSamples)
    (hL : ∀ k, lo ≤ k → k < m → tr.samples k = some vL)
    (hR : ∀ k, m ≤ k → k < hi → tr.samples k = some vR) :
    nanmean tr lo hi
      = some ((((m - lo : Nat) : ℚ) * vL + ((hi - m : Nat) : ℚ) * vR) / (((hi - lo : Nat) : ℚ))) := by
  have hmin1 : min lo tr.numSamples = lo := Nat.min_eq_left (by omega)
  have hmin2 : min hi tr.numSamples = hi := Nat.min_eq_left hlen
  have hsplit : hi - lo = (m - lo) + (hi - m) := by omega
  have hfst : sliceSumCountGo tr (m - lo) lo 0 0 = ((0 : ℚ) + ((m - lo : Nat) : ℚ) * vL, 0 + (m - lo)) :=
    sliceSumCountGo_const tr vL (m - lo) lo 0 0 (fun k hk1 hk2 => hL k hk1 (by omega))
  have hlom : lo + (m - lo) = m := by omega
  have hsnd : sliceSumCountGo tr (hi - m) m ((0 : ℚ) + ((m - lo : Nat) : ℚ) * vL) (0 + (m - lo))
      = ((0 : ℚ) + ((m - lo : Nat) : ℚ) * vL + ((hi - m : Nat) : ℚ) * vR, 0 + (m - lo) + (hi - m)) :=
    sliceSumCountGo_const tr vR (hi - m) m _ _ (fun k hk1 hk2 => hR k hk1 (by omega))
  simp only [nanmean]
  rw [hmin1, hmin2, hsplit, sliceSumCountGo_append, hfst]
  simp only [hlom]
  rw [hsnd]
  have hc : 0 + (m - lo) + (hi - m) ≠ 0 := by omega
  simp only [hc, if_false, if_neg hc]
  congr 1
  have hcast : ((0 + (m - lo) + (hi - m) : Nat) : ℚ) = ((m - lo : Nat) : ℚ) + ((hi - m : Nat) : ℚ) := by
    push_cast; ring
  rw [hcast]
  have hcast2 : (((m - lo) + (hi - m) : Nat) : ℚ) = ((m - lo : Nat) : ℚ) + ((hi - m : Nat) : ℚ) := by
    push_cast; ring
  rw [hcast2]
  ring

/-- Mean of a window inside a single constant region. -/
lemma nanmean_const (tr : Track) (lo hi : Nat) (v : ℚ)
    (hlo : lo < hi) (hlen : hi ≤ tr.numSamples)
    (h : ∀ k, lo ≤ k → k < hi → tr.samples k = some v) :
    nanmean tr lo hi = some v := by
  rw [nanmean_two_const tr lo lo hi v v (le_refl lo) (by omega) hlo hlen
      (fun k hk1 hk2 => (Nat.lt_irrefl lo (Nat.lt_of_le_of_lt hk1 hk2)).elim) h]
  congr 1
  have hne : (((hi - lo : Nat) : ℚ)) ≠ 0 := by
    have : 0 < hi - lo := by omega
    positivity
  field_simp

/-- Evaluating the at-least comparison through a known mean. -/
lemma meanGE_of_nanmean (tr : Track) (lo hi : Nat) (c x : ℚ) (h : nanmean tr lo hi = some x) :
    meanGE tr lo hi c = decide (c ≤ x) := by
  simp [meanGE, h]

/-- Evaluating the below comparison through a known mean. -/
lemma meanLT_of_nanmean (tr : Track) (lo hi : Nat) (c x : ℚ) (h : nanmean tr lo hi = some x) :
    meanLT tr lo hi c = decide (x < c) := by
  simp [meanLT, h]

/-- A window whose mean is below the threshold is not at or above it. -/
lemma meanGE_false_of_meanLT (tr : Track) (lo hi : Nat) (c : ℚ) (h : meanLT tr lo hi c = true) :
    meanGE tr lo hi c = false := by
  cases hnm : nanmean tr lo hi with
  | none => simp [meanGE, hnm]
  | some m =>
    have hm : m < c := by simpa [meanLT, hnm] using h
    simp only [meanGE, hnm, decide_eq_false_iff_not, not_le]
    exact hm

/-- One-step unfolding of the recovery search. -/
lemma findRecoveryGo_succ_eq (tr : Track) (sr fuel j : Nat) (last : Option Nat) :
    findRecoveryGo tr sr (fuel + 1) j last
      = if meanGE tr ((j - 60) * sr) (j * sr) 65 then (some (j - 1), some j)
        else findRecoveryGo tr sr fuel (j + 1) (some j) := rfl

/-- One-step unfolding of the first-pass loop. -/
lemma firstPassGo_succ_eq (tr : Track) (sr L fuel i : Nat) (st : FirstPassState) :
    firstPassGo tr sr L (fuel + 1) i st
      = if i + 60 < L then
          (if st.started then
            (if meanLT tr (i * sr) ((i + 60) * sr) 65 then
              (match findRecovery tr sr (i + 60) L st.jVar with
               | (none, j2) => { st with jVar := j2 }
               | (some segEnd, j2) =>
                 firstPassGo tr sr L fuel (segEnd + 1)
                   { st with iohEvents := st.iohEvents ++ [(i, segEnd)], jVar := j2 })
            else firstPassGo tr sr L fuel (i + 1) st)
          else
            (if meanGE tr (i * sr) ((i + 60) * sr) 65 then
              firstPassGo tr sr L fuel (i + 1)
                { st with started := true, trackStartIndex := some i }
            else firstPassGo tr sr L fuel (i + 1) st))
        else st := rfl

/-- Empty recovery range: nothing found, `j` untouched. -/
lemma findRecoveryGo_zero (tr : Track) (sr : Nat) (j : Nat) (last : Option Nat) :
    findRecoveryGo tr sr 0 j last = (none, last) := rfl

/-- Recovery found at the current `j`. -/
lemma findRecoveryGo_hit (tr : Track) (sr fuel j : Nat) (last : Option Nat)
    (hm : meanGE tr ((j - 60) * sr) (j * sr) 65 = true) :
    findRecoveryGo tr sr (fuel + 1) j last = (some (j - 1), some j) := by
  rw [findRecoveryGo_succ_eq, if_pos hm]

/-- Miss at the current `j`: the search moves on, `j` now assigned. -/
lemma findRecoveryGo_miss (tr : Track) (sr fuel j : Nat) (last : Option Nat)
    (hm : meanGE tr ((j - 60) * sr) (j * sr) 65 = false) :
    findRecoveryGo tr sr (fuel + 1) j last = findRecoveryGo tr sr fuel (j + 1) (some j) := by
  rw [findRecoveryGo_succ_eq, if_neg (by simp [hm])]

/-- Skipping `m + 1` recovery candidates whose windows all stay low. -/
lemma findRecoveryGo_skip (tr : Track) (sr : Nat) : ∀ (m fuel j : Nat) (last : Option Nat),
    m + 1 ≤ fuel →
    (∀ t, j ≤ t → t < j + (m + 1) → meanGE tr ((t - 60) * sr) (t * sr) 65 = false) →
    findRecoveryGo tr sr fuel j last
      = findRecoveryGo tr sr (fuel - (m + 1)) (j + (m + 1)) (some (j + m)) := by
  intro m
  induction m with
  | zero =>
    intro fuel j last hf hmeans
    obtain ⟨f, rfl⟩ : ∃ f, fuel = f + 1 := ⟨fuel - 1, by omega⟩
    rw [findRecoveryGo_miss tr sr f j last (hmeans j (le_refl j) (by omega))]
    norm_num
  | succ m ih =>
    intro fuel j last hf hmeans
    obtain ⟨f, rfl⟩ : ∃ f, fuel = f + 1 := ⟨fuel - 1, by omega⟩
    rw [findRecoveryGo_miss tr sr f j last (hmeans j (le_refl j) (by omega))]
    rw [ih f (j + 1) (some j) (by omega) (fun t ht1 ht2 => hmeans t (by omega) (by omega))]
    rw [show f - (m + 1) = f + 1 - (m + 1 + 1) by omega,
        show j + 1 + (m + 1) = j + (m + 1 + 1) by omega,
        show j + 1 + m = j + (m + 1) by omega]

/-- A found recovery end lies at or beyond the point just before the
start of the search range. -/
lemma findRecoveryGo_some_lower (tr : Track) (sr : Nat) : ∀ (fuel j : Nat) (last : Option Nat)
    (e : Nat) (j2 : Option Nat), findRecoveryGo tr sr fuel j last = (some e, j2) → j ≤ e + 1 := by
  intro fuel
  induction fuel with
  | zero => intro j last e j2 h; simp [findRecoveryGo_zero] at h
  | succ f ih =>
    intro j last e j2 h
    cases hm : meanGE tr ((j - 60) * sr) (j * sr) 65 with
    | true =>
      rw [findRecoveryGo_hit tr sr f j last hm] at h
      have he : some (j - 1) = some e := congrArg Prod.fst h
      have he2 : j - 1 = e := by simpa using he
      omega
    | false =>
      rw [findRecoveryGo_miss tr sr f j last hm] at h
      have := ih (j + 1) (some j) e j2 h
      omega

/-- When the window just before the search range is low (always the
case, since it triggered the event), a found recovery end lies at or
beyond the start of the search range. -/
lemma findRecovery_some_lower (tr : Track) (sr lo hi : Nat) (j0 : Option Nat)
    (e : Nat) (j2 : Option Nat)
    (hm : meanGE tr ((lo - 60) * sr) (lo * sr) 65 = false)
    (h : findRecovery tr sr lo hi j0 = (some e, j2)) : lo ≤ e := by
  unfold findRecovery at h
  cases hfu : hi - lo with
  | zero => rw [hfu, findRecoveryGo_zero] at h; simp at h
  | succ f =>
    rw [hfu, findRecoveryGo_miss tr sr f lo j0 hm] at h
    have := findRecoveryGo_some_lower tr sr f (lo + 1) (some lo) e j2 h
    omega

/-- The `j` slot stays assigned once it has been assigned. -/
lemma findRecoveryGo_snd_some (tr : Track) (sr : Nat) : ∀ (fuel j x : Nat),
    ∃ y, (findRecoveryGo tr sr fuel j (some x)).2 = some y := by
  intro fuel
  induction fuel with
  | zero => intro j x; exact ⟨x, rfl⟩
  | succ f ih =>
    intro j x
    cases hm : meanGE tr ((j - 60) * sr) (j * sr) 65 with
    | true => rw [findRecoveryGo_hit tr sr f j (some x) hm]; exact ⟨j, rfl⟩
    | false => rw [findRecoveryGo_miss tr sr f j (some x) hm]; exact ih (j + 1) j

/-- A recovery search that reports an event end always assigns `j`. -/
lemma findRecoveryGo_some_snd (tr : Track) (sr : Nat) : ∀ (fuel j : Nat) (last : Option Nat)
    (e : Nat) (j2 : Option Nat), findRecoveryGo tr sr fuel j last = (some e, j2) →
    ∃ y, j2 = some y := by
  intro fuel
  induction fuel with
  | zero => intro j last e j2 h; simp [findRecoveryGo_zero] at h
  | succ f ih =>
    intro j last e j2 h
    cases hm : meanGE tr ((j - 60) * sr) (j * sr) 65 with
    | true =>
      rw [findRecoveryGo_hit tr sr f j last hm] at h
      exact ⟨j, (congrArg Prod.snd h).symm⟩
    | false =>
      rw [findRecoveryGo_miss tr sr f j last hm] at h
      exact ih (j + 1) (some j) e j2 h

/-- The first-pass loop stops as soon as the guard fails. -/
lemma firstPassGo_end (tr : Track) (sr L fuel i : Nat) (st : FirstPassState)
    (h : ¬ i + 60 < L) : firstPassGo tr sr L fuel i st = st := by
  cases fuel with
  | zero => rfl
  | succ f => rw [firstPassGo_succ_eq, if_neg h]

/-- The step that turns the scan live. -/
lemma firstPassGo_start_step (tr : Track) (sr L fuel i : Nat) (st : FirstPassState)
    (h : i + 60 < L) (hst : st.started = false)
    (hm : meanGE tr (i * sr) ((i + 60) * sr) 65 = true) :
    firstPassGo tr sr L (fuel + 1) i st
      = firstPassGo tr sr L fuel (i + 1) { st with started := true, trackStartIndex := some i } := by
  rw [firstPassGo_succ_eq, if_pos h]
  simp [hst, hm]

/-- A live step whose window stays at or above the threshold. -/
lemma firstPassGo_high_step (tr : Track) (sr L fuel i : Nat) (st : FirstPassState)
    (h : i + 60 < L) (hst : st.started = true)
    (hm : meanLT tr (i * sr) ((i + 60) * sr) 65 = false) :
    firstPassGo tr sr L (fuel + 1) i st = firstPassGo tr sr L fuel (i + 1) st := by
  rw [firstPassGo_succ_eq, if_pos h]
  simp [hst, hm]

/-- A live step that opens an event and finds its recovery. -/
lemma firstPassGo_event_step (tr : Track) (sr L fuel i : Nat) (st : FirstPassState)
    (e : Nat) (j2 : Option Nat)
    (h : i + 60 < L) (hst : st.started = true)
    (hm : meanLT tr (i * sr) ((i + 60) * sr) 65 = true)
    (hrec : findRecovery tr sr (i + 60) L st.jVar = (some e, j2)) :
    firstPassGo tr sr L (fuel + 1) i st
      = firstPassGo tr sr L fuel (e + 1)
          { st with iohEvents := st.iohEvents ++ [(i, e)], jVar := j2 } := by
  rw [firstPassGo_succ_eq, if_pos h]
  simp [hst, hm, hrec]

/-- A live step that opens an event whose recovery never comes: the
event is dropped and the scan stops. -/
lemma firstPassGo_abandon_step (tr : Track) (sr L fuel i : Nat) (st : FirstPassState)
    (j2 : Option Nat)
    (h : i + 60 < L) (hst : st.started = true)
    (hm : meanLT tr (i * sr) ((i + 60) * sr) 65 = true)
    (hrec : findRecovery tr sr (i + 60) L st.jVar = (none, j2)) :
    firstPassGo tr sr L (fuel + 1) i st = { st with jVar := j2 } := by
  rw [firstPassGo_succ_eq, if_pos h]
  simp [hst, hm, hrec]

/-- Skipping `n` live steps whose windows all stay at or above the
threshold. -/
lemma firstPassGo_skip (tr : Track) (sr L : Nat) (st : FirstPassState)
    (hst : st.started = true) : ∀ (n fuel i : Nat), n ≤ fuel → i + n + 59 < L →
    (∀ t, i ≤ t → t < i + n → meanLT tr (t * sr) ((t + 60) * sr) 65 = false) →
    firstPassGo tr sr L fuel i st = firstPassGo tr sr L (fuel - n) (i + n) st := by
  intro n
  induction n with
  | zero => intro fuel i _ _ _; simp
  | succ n ih =>
    intro fuel i hf hL hmeans
    obtain ⟨f, rfl⟩ : ∃ f, fuel = f + 1 := ⟨fuel - 1, by omega⟩
    rw [firstPassGo_high_step tr sr L f i st (by omega) hst
          (hmeans i (le_refl i) (by omega))]
    rw [ih f (i + 1) (by omega) (by omega) (fun t ht1 ht2 => hmeans t (by omega) (by omega))]
    rw [show f - n = f + 1 - (n + 1) by omega, show i + 1 + n = i + (n + 1) by omega]

/-- Invariant carried through the first-pass loop: recorded events are
well-formed (start below end, at least 60 seconds long), lie before the
cursor, and form a strictly increasing non-overlapping chain. -/
lemma firstPassGo_inv (tr : Track) (sr L : Nat) : ∀ (fuel i : Nat) (st : FirstPassState),
    (∀ p ∈ st.iohEvents, p.1 < p.2 ∧ 60 ≤ p.2 - p.1 ∧ p.2 < i) →
    List.Chain' (fun a b => a.2 < b.1) st.iohEvents →
    (∀ p ∈ (firstPassGo tr sr L fuel i st).iohEvents, p.1 < p.2 ∧ 60 ≤ p.2 - p.1) ∧
      List.Chain' (fun a b => a.2 < b.1) (firstPassGo tr sr L fuel i st).iohEvents := by
  intro fuel
  induction fuel with
  | zero =>
    intro i st hwf hch
    exact ⟨fun p hp => ⟨(hwf p hp).1, (hwf p hp).2.1⟩, hch⟩
  | succ f ih =>
    intro i st hwf hch
    by_cases hg : i + 60 < L
    · cases hst : st.started with
      | false =>
        cases hm : meanGE tr (i * sr) ((i + 60) * sr) 65 with
        | true =>
          rw [firstPassGo_start_step tr sr L f i st hg hst hm]
          exact ih (i + 1)
            { st with started := true, trackStartIndex := some i }
            (fun p hp => ⟨(hwf p hp).1, (hwf p hp).2.1, by have := (hwf p hp).2.2; omega⟩) hch
        | false =>
          rw [show firstPassGo tr sr L (f + 1) i st = firstPassGo tr sr L f (i + 1) st by
                rw [firstPassGo_succ_eq, if_pos hg]; simp [hst, hm]]
          exact ih (i + 1) st
            (fun p hp => ⟨(hwf p hp).1, (hwf p hp).2.1, by have := (hwf p hp).2.2; omega⟩) hch
      | true =>
        cases hm : meanLT tr (i * sr) ((i + 60) * sr) 65 with
        | false =>
          rw [firstPassGo_high_step tr sr L f i st hg hst hm]
          exact ih (i + 1) st
            (fun p hp => ⟨(hwf p hp).1, (hwf p hp).2.1, by have := (hwf p hp).2.2; omega⟩) hch
        | true =>
          rcases hrec : findRecovery tr sr (i + 60) L st.jVar with ⟨reco, j2⟩
          cases reco with
          | none =>
            rw [firstPassGo_abandon_step tr sr L f i st j2 hg hst hm hrec]
            exact ⟨fun p hp => ⟨(hwf p hp).1, (hwf p hp).2.1⟩, hch⟩
          | some e =>
            have hlow : meanGE tr (i * sr) ((i + 60) * sr) 65 = false :=
              meanGE_false_of_meanLT tr (i * sr) ((i + 60) * sr) 65 hm
            have hlow2 : meanGE tr ((i + 60 - 60) * sr) ((i + 60) * sr) 65 = false := by
              rw [show i + 60 - 60 = i by omega]
              exact hlow
            have he : i + 60 ≤ e :=
              findRecovery_some_lower tr sr (i + 60) L st.jVar e j2 hlow2 hrec
            rw [firstPassGo_event_step tr sr L f i st e j2 hg hst hm hrec]
            refine ih (e + 1) { st with iohEvents := st.iohEvents ++ [(i, e)], jVar := j2 }
              ?_ ?_
            · intro p hp
              rcases List.mem_append.mp hp with hold | hnew
              · refine ⟨(hwf p hold).1, (hwf p hold).2.1, ?_⟩
                have := (hwf p hold).2.2
                omega
              · have hpe : p = (i, e) := by simpa using hnew
                subst hpe
                exact ⟨by omega, by omega, by omega⟩
            · rw [List.chain'_append]
              refine ⟨hch, List.chain'_singleton _, ?_⟩
              intro x hx y hy
              have hxm : x ∈ st.iohEvents := List.mem_of_mem_getLast? hx
              have hym : (i, e) = y := by simpa using hy
              subst hym
              have := (hwf x hxm).2.2
              simpa using this
    · rw [firstPassGo_end tr sr L (f + 1) i st hg]
      exact ⟨fun p hp => ⟨(hwf p hp).1, (hwf p hp).2.1⟩, hch⟩

/-- Events are only ever recorded together with an assignment of `j`:
an unassigned `j` after the first pass means no event was recorded. -/
lemma firstPassGo_events_jVar (tr : Track) (sr L : Nat) : ∀ (fuel i : Nat) (st : FirstPassState),
    (st.iohEvents = [] ∨ ∃ y, st.jVar = some y) →
    (firstPassGo tr sr L fuel i st).iohEvents = []
      ∨ ∃ y, (firstPassGo tr sr L fuel i st).jVar = some y := by
  intro fuel
  induction fuel with
  | zero => intro i st h; exact h
  | succ f ih =>
    intro i st h
    by_cases hg : i + 60 < L
    · cases hst : st.started with
      | false =>
        cases hm : meanGE tr (i * sr) ((i + 60) * sr) 65 with
        | true =>
          rw [firstPassGo_start_step tr sr L f i st hg hst hm]
          exact ih (i + 1) _ h
        | false =>
          rw [show firstPassGo tr sr L (f + 1) i st = firstPassGo tr sr L f (i + 1) st by
                rw [firstPassGo_succ_eq, if_pos hg]; simp [hst, hm]]
          exact ih (i + 1) st h
      | true =>
        cases hm : meanLT tr (i * sr) ((i + 60) * sr) 65 with
        | false =>
          rw [firstPassGo_high_step tr sr L f i st hg hst hm]
          exact ih (i + 1) st h
        | true =>
          rcases hrec : findRecovery tr sr (i + 60) L st.jVar with ⟨reco, j2⟩
          cases reco with
          | none =>
            rw [firstPassGo_abandon_step tr sr L f i st j2 hg hst hm hrec]
            rcases h with h | ⟨y, hy⟩
            · exact Or.inl h
            · unfold findRecovery at hrec
              cases hfu : L - (i + 60) with
              | zero =>
                rw [hfu, findRecoveryGo_zero] at hrec
                have : j2 = st.jVar := (congrArg Prod.snd hrec).symm
                exact Or.inr ⟨y, by simp [this, hy]⟩
              | succ ff =>
                rw [hfu] at hrec
                rw [hy] at hrec
                have := findRecoveryGo_snd_some tr sr (ff + 1) (i + 60) y
                rcases this with ⟨z, hz⟩
                rw [hrec] at hz
                exact Or.inr ⟨z, hz⟩
          | some e =>
            rw [firstPassGo_event_step tr sr L f i st e j2 hg hst hm hrec]
            unfold findRecovery at hrec
            rcases findRecoveryGo_some_snd tr sr (L - (i + 60)) (i + 60) st.jVar e j2 hrec
              with ⟨y, hy⟩
            refine ih (e + 1) _ (Or.inr ⟨y, by simpa using hy⟩)
    · rw [firstPassGo_end tr sr L (f + 1) i st hg]
      exact h

/-- A first pass with `j` never assigned recorded no event. -/
lemma firstPass_jVar_none_events (tr : Track) (sr : Nat)
    (h : (firstPass tr sr).jVar = none) : (firstPass tr sr).iohEvents = [] := by
  unfold firstPass
  unfold firstPass at h
  rcases firstPassGo_events_jVar tr sr (trackLengthSeconds tr sr) (trackLengthSeconds tr sr) 0
      ⟨[], none, false, none⟩ (Or.inl rfl) with he | ⟨y, hy⟩
  · exact he
  · rw [h] at hy
    cases hy

/-- One-step unfolding of the second-pass loop. -/
lemma secondPassGo_succ_eq (tr : Track) (sr L : Nat) (events : List (Nat × Nat))
    (jVar : Option Nat) (fuel i : Nat) (acc : List (Nat × Nat)) :
    secondPassGo tr sr L events jVar (fuel + 1) i acc
      = if i + 1800 < L then
          (match overlapScan events ((i : ℤ), ((i + 1800 : Nat) : ℤ)) with
           | some latestEnd => secondPassGo tr sr L events jVar fuel (latestEnd + 1) acc
           | none =>
             if meanGE tr (i * sr) ((i + 1800) * sr) 75 then
               (match jVar with
                | none => .error ()
                | some j =>
                  (match overlapScan events ((j : ℤ) - 1800, (j : ℤ)) with
                   | some _ => secondPassGo tr sr L events jVar fuel (i + 10) acc
                   | none =>
                     secondPassGo tr sr L events jVar fuel (i + 1800 + 1) (acc ++ [(i, i + 1800)])))
             else secondPassGo tr sr L events jVar fuel (i + 10) acc)
        else .ok acc := rfl

/-- Exhausted second-pass fuel (never reached with the fuel chosen by
`secondPass`). -/
lemma secondPassGo_zero (tr : Track) (sr L : Nat) (events : List (Nat × Nat))
    (jVar : Option Nat) (i : Nat) (acc : List (Nat × Nat)) :
    secondPassGo tr sr L events jVar 0 i acc = .ok acc := rfl

/-- The second-pass loop stops as soon as the guard fails. -/
lemma secondPassGo_end (tr : Track) (sr L : Nat) (events : List (Nat × Nat))
    (jVar : Option Nat) (fuel i : Nat) (acc : List (Nat × Nat)) (h : ¬ i + 1800 < L) :
    secondPassGo tr sr L events jVar fuel i acc = .ok acc := by
  cases fuel with
  | zero => rfl
  | succ f => rw [secondPassGo_succ_eq, if_neg h]

/-- An empty overlap scan leaves `latestEnd` unset. -/
lemma overlapScan_nil (a : ℤ × ℤ) : overlapScan [] a = none := rfl

/-- A scan that reports no overlap means the code test fails on every
event. -/
lemma overlapScan_none_iff (a : ℤ × ℤ) : ∀ (events : List (Nat × Nat)),
    overlapScan events a = none ↔
      ∀ e ∈ events, overlapsCode a ((e.1 : ℤ), (e.2 : ℤ)) = false := by
  have haux : ∀ (events : List (Nat × Nat)) (st : Option Nat),
      events.foldl
          (fun st e => if overlapsCode a ((e.1 : ℤ), (e.2 : ℤ)) then some e.2 else st) st = none ↔
        st = none ∧ ∀ e ∈ events, overlapsCode a ((e.1 : ℤ), (e.2 : ℤ)) = false := by
    intro events
    induction events with
    | nil => intro st; simp
    | cons e rest ih =>
      intro st
      rw [List.foldl_cons, ih]
      cases hc : overlapsCode a ((e.1 : ℤ), (e.2 : ℤ)) with
      | true => simp [hc]
      | false => simp [hc]
  intro events
  rw [overlapScan, haux]
  simp

/-- A scan that reports an overlap names the end of an event on which
the code test succeeds. -/
lemma overlapScan_some (a : ℤ × ℤ) : ∀ (events : List (Nat × Nat)) (v : Nat),
    overlapScan events a = some v →
      ∃ e ∈ events, overlapsCode a ((e.1 : ℤ), (e.2 : ℤ)) = true ∧ v = e.2 := by
  have haux : ∀ (events : List (Nat × Nat)) (st : Option Nat) (v : Nat),
      events.foldl
          (fun st e => if overlapsCode a ((e.1 : ℤ), (e.2 : ℤ)) then some e.2 else st) st = some v →
        (∃ e ∈ events, overlapsCode a ((e.1 : ℤ), (e.2 : ℤ)) = true ∧ v = e.2) ∨ st = some v := by
    intro events
    induction events with
    | nil => intro st v h; exact Or.inr h
    | cons e rest ih =>
      intro st v h
      rw [List.foldl_cons] at h
      rcases ih _ v h with ⟨e2, he2, hov, hv⟩ | hst
      · exact Or.inl ⟨e2, List.mem_cons_of_mem e he2, hov, hv⟩
      · cases hc : overlapsCode a ((e.1 : ℤ), (e.2 : ℤ)) with
        | true =>
          rw [if_pos hc] at hst
          exact Or.inl ⟨e, List.mem_cons_self e rest, hc, by simpa using hst.symm⟩
        | false =>
          rw [if_neg (by simp [hc])] at hst
          exact Or.inr hst
  intro events v h
  rcases haux events none v h with hgood | hbad
  · exact hgood
  · cases hbad

/-- An overlapping event found by the scan ends beyond the cursor, for
well-formed events. -/
lemma overlapScan_some_lower (i w : Nat) (events : List (Nat × Nat)) (v : Nat)
    (hwf : ∀ e ∈ events, e.1 < e.2)
    (h : overlapScan events ((i : ℤ), ((i + w : Nat) : ℤ)) = some v) : i < v := by
  rcases overlapScan_some _ events v h with ⟨e, he, hov, hv⟩
  have hew : e.1 < e.2 := hwf e he
  subst hv
  unfold overlapsCode at hov
  simp only [Bool.or_eq_true, Bool.and_eq_true, decide_eq_true_eq] at hov
  push_cast at hov
  omega

/-- Invariant carried through the second-pass loop: on normal
termination every recorded clean window is exactly 1800 seconds long,
fails the code overlap test against every IOH event, and the windows
form a strictly increasing non-overlapping chain. -/
lemma secondPassGo_inv (tr : Track) (sr L : Nat) (events : List (Nat × Nat))
    (jVar : Option Nat) (hwf : ∀ e ∈ events, e.1 < e.2) :
    ∀ (fuel i : Nat) (acc ws : List (Nat × Nat)),
    (∀ w ∈ acc, w.2 = w.1 + 1800 ∧
      (∀ e ∈ events, overlapsCode ((w.1 : ℤ), (w.2 : ℤ)) ((e.1 : ℤ), (e.2 : ℤ)) = false) ∧
      w.2 < i) →
    List.Chain' (fun a b => a.2 < b.1) acc →
    secondPassGo tr sr L events jVar fuel i acc = .ok ws →
    (∀ w ∈ ws, w.2 = w.1 + 1800 ∧
      (∀ e ∈ events, overlapsCode ((w.1 : ℤ), (w.2 : ℤ)) ((e.1 : ℤ), (e.2 : ℤ)) = false)) ∧
      List.Chain' (fun a b => a.2 < b.1) ws := by
  intro fuel
  induction fuel with
  | zero =>
    intro i acc ws hacc hch hrun
    rw [secondPassGo_zero] at hrun
    have hws : acc = ws := by simpa using hrun
    subst hws
    exact ⟨fun w hw => ⟨(hacc w hw).1, (hacc w hw).2.1⟩, hch⟩
  | succ f ih =>
    intro i acc ws hacc hch hrun
    by_cases hg : i + 1800 < L
    · rw [secondPassGo_succ_eq, if_pos hg] at hrun
      cases hscan : overlapScan events ((i : ℤ), ((i + 1800 : Nat) : ℤ)) with
      | some latestEnd =>
        simp only [hscan] at hrun
        have hlt : i < latestEnd := overlapScan_some_lower i 1800 events latestEnd hwf hscan
        exact ih (latestEnd + 1) acc ws
          (fun w hw => ⟨(hacc w hw).1, (hacc w hw).2.1, by have := (hacc w hw).2.2; omega⟩)
          hch hrun
      | none =>
        simp only [hscan] at hrun
        cases hm : meanGE tr (i * sr) ((i + 1800) * sr) 75 with
        | false =>
          rw [if_neg (by simp [hm])] at hrun
          exact ih (i + 10) acc ws
            (fun w hw => ⟨(hacc w hw).1, (hacc w hw).2.1, by have := (hacc w hw).2.2; omega⟩)
            hch hrun
        | true =>
          rw [if_pos hm] at hrun
          cases hj : jVar with
          | none => simp only [hj] at hrun; cases hrun
          | some j =>
            subst hj
            simp only [] at hrun
            cases hfwd : overlapScan events ((j : ℤ) - 1800, (j : ℤ)) with
            | some v =>
              simp only [hfwd] at hrun
              exact ih (i + 10) acc ws
                (fun w hw => ⟨(hacc w hw).1, (hacc w hw).2.1, by have := (hacc w hw).2.2; omega⟩)
                hch hrun
            | none =>
              simp only [hfwd] at hrun
              refine ih (i + 1800 + 1) (acc ++ [(i, i + 1800)]) ws ?_ ?_ hrun
              · intro w hw
                rcases List.mem_append.mp hw with hold | hnew
                · exact ⟨(hacc w hold).1, (hacc w hold).2.1,
                    by have := (hacc w hold).2.2; omega⟩
                · have hwi : w = (i, i + 1800) := by simpa using hnew
                  subst hwi
                  refine ⟨rfl, ?_, by omega⟩
                  exact (overlapScan_none_iff _ events).mp hscan
              · rw [List.chain'_append]
                refine ⟨hch, List.chain'_singleton _, ?_⟩
                intro x hx y hy
                have hxm : x ∈ acc := List.mem_of_mem_getLast? hx
                have hym : (i, i + 1800) = y := by simpa using hy
                have := (hacc x hxm).2.2
                rw [← hym]
                simpa using this
    · rw [secondPassGo_end tr sr L events jVar (f + 1) i acc hg] at hrun
      have hws : acc = ws := by simpa using hrun
      subst hws
      exact ⟨fun w hw => ⟨(hacc w hw).1, (hacc w hw).2.1⟩, hch⟩

/-- With no IOH event and `j` never assigned, any reachable candidate
window at or above the clean threshold makes the second pass fail (the
Python `NameError` on `j`). -/
lemma secondPassGo_error_of_hot (tr : Track) (sr L : Nat) :
    ∀ (k fuel i : Nat) (acc : List (Nat × Nat)),
    k < fuel →
    i + 10 * k + 1800 < L →
    meanGE tr ((i + 10 * k) * sr) ((i + 10 * k + 1800) * sr) 75 = true →
    secondPassGo tr sr L [] none fuel i acc = .error () := by
  intro k
  induction k with
  | zero =>
    intro fuel i acc hf hg hm
    obtain ⟨f, rfl⟩ : ∃ f, fuel = f + 1 := ⟨fuel - 1, by omega⟩
    rw [secondPassGo_succ_eq, if_pos (by omega : i + 1800 < L)]
    simp only [Nat.mul_zero, Nat.add_zero] at hm
    simp only [overlapScan_nil, hm, if_true]
  | succ k ih =>
    intro fuel i acc hf hg hm
    obtain ⟨f, rfl⟩ : ∃ f, fuel = f + 1 := ⟨fuel - 1, by omega⟩
    rw [secondPassGo_succ_eq, if_pos (by omega : i + 1800 < L)]
    cases hm0 : meanGE tr (i * sr) ((i + 1800) * sr) 75 with
    | true => simp only [overlapScan_nil, hm0, if_true]
    | false =>
      simp only [overlapScan_nil, hm0, Bool.false_eq_true, if_false]
      refine ih f (i + 10) acc (by omega) (by omega) ?_
      rw [show i + 10 + 10 * k = i + 10 * (k + 1) by omega]
      exact hm

/-- The rejection chain of the third pass, spelled out. -/
lemma acceptPositive_true_iff (tsi : Nat) (prev : Option (Nat × Nat)) (s en : ℤ) :
    acceptPositive tsi prev s en = true ↔
      0 ≤ s ∧ (tsi : ℤ) ≤ s ∧
        (prev = none ∨ ∃ p, prev = some p ∧
          overlapsCode (s, en) ((p.1 : ℤ), (p.2 : ℤ)) = false) := by
  cases prev with
  | none =>
    simp only [acceptPositive]
    by_cases h0 : s < 0
    · simp [h0]
    · by_cases h1 : s < (tsi : ℤ)
      · simp [h0, h1]
      · simp [h0, h1]
        omega
  | some p =>
    simp only [acceptPositive]
    by_cases h0 : s < 0
    · simp [h0]
    · by_cases h1 : s < (tsi : ℤ)
      · simp [h0, h1]
      · simp [h0, h1, not_lt.mp h0, not_lt.mp h1]

/-- Membership in the third-pass output, with the previous-event slot
threaded explicitly. -/
lemma thirdPassGo_mem (tsi : Nat) : ∀ (l : List (Nat × Nat)) (prev : Option (Nat × Nat))
    (s en : ℤ) (pw : Nat),
    ((s, en, pw) ∈ thirdPassGo tsi prev l) ↔
    ∃ k, ∃ hk : k < l.length, pw ∈ ALL_PREDICTION_WINDOWS ∧
      s = ((l.get ⟨k, hk⟩).1 : ℤ) - (pw : ℤ) * 60 ∧ en = s + 60 ∧
      acceptPositive tsi (if k = 0 then prev else l.get? (k - 1)) s en = true := by
  intro l
  induction l with
  | nil =>
    intro prev s en pw
    simp [thirdPassGo]
  | cons e rest ih =>
    intro prev s en pw
    rw [show thirdPassGo tsi prev (e :: rest)
          = (ALL_PREDICTION_WINDOWS.filterMap (fun (pw : Nat) =>
              if acceptPositive tsi prev ((e.1 : ℤ) - (pw : ℤ) * 60) ((e.1 : ℤ) - (pw : ℤ) * 60 + 60)
              then some (Prod.mk ((e.1 : ℤ) - (pw : ℤ) * 60)
                (Prod.mk ((e.1 : ℤ) - (pw : ℤ) * 60 + 60) pw))
              else none))
            ++ thirdPassGo tsi (some e) rest from rfl]
    rw [List.mem_append, List.mem_filterMap, ih]
    constructor
    · rintro (⟨pw', hpw', hsome⟩ | ⟨k, hk, hpw, hs, hen, hacc⟩)
      · by_cases hacc : acceptPositive tsi prev ((e.1 : ℤ) - (pw' : ℤ) * 60)
            ((e.1 : ℤ) - (pw' : ℤ) * 60 + 60) = true
        · rw [if_pos hacc] at hsome
          have hinj := Option.some.inj hsome
          have h1 : (e.1 : ℤ) - (pw' : ℤ) * 60 = s := congrArg Prod.fst hinj
          have h2 : (e.1 : ℤ) - (pw' : ℤ) * 60 + 60 = en := congrArg (fun q => q.2.1) hinj
          have h3 : pw' = pw := congrArg (fun q => q.2.2) hinj
          subst h3
          refine ⟨0, by simp, hpw', by simpa using h1.symm, by omega, ?_⟩
          have hif : (if (0 : Nat) = 0 then prev else (e :: rest).get? (0 - 1)) = prev :=
            if_pos rfl
          rw [hif]
          rw [h1] at hacc
          rw [show en = s + 60 by omega]
          exact hacc
        · rw [if_neg hacc] at hsome
          cases hsome
      · refine ⟨k + 1, by simpa using Nat.succ_lt_succ hk, hpw, by simpa using hs, hen, ?_⟩
        simp only [Nat.add_sub_cancel]
        cases k with
        | zero => simpa using hacc
        | succ m => simpa using hacc
    · rintro ⟨k, hk, hpw, hs, hen, hacc⟩
      cases k with
      | zero =>
        left
        refine ⟨pw, hpw, ?_⟩
        have hif : (if (0 : Nat) = 0 then prev else (e :: rest).get? (0 - 1)) = prev :=
          if_pos rfl
        rw [hif] at hacc
        have hs' : s = (e.1 : ℤ) - (pw : ℤ) * 60 := by simpa using hs
        rw [← hs', ← hen, if_pos hacc]
      | succ m =>
        right
        refine ⟨m, by simpa using Nat.lt_of_succ_lt_succ hk, hpw, by simpa using hs, hen, ?_⟩
        simp only [Nat.add_sub_cancel] at hacc
        cases m with
        | zero => simpa using hacc
        | succ mm => simpa using hacc

/-- Fourth pass as a per-window map: exactly three segments per clean
window, in window order. -/
lemma fourthPassGo_eq_join (ws : List (Nat × Nat)) :
    fourthPassGo ws
      = (ws.map (fun w =>
          [(w.1 + 600, (w.1 + 600) + 60), (w.1 + 900, (w.1 + 900) + 60),
           (w.1 + 1200, (w.1 + 1200) + 60)])).flatten := by
  induction ws with
  | nil => rfl
  | cons w rest ih => simp [fourthPassGo, ih]

/-- Well-formedness of the events of a full first pass. -/
lemma firstPass_events_wf (tr : Track) (sr : Nat) :
    ∀ p ∈ (firstPass tr sr).iohEvents, p.1 < p.2 := by
  intro p hp
  unfold firstPass at hp
  exact ((firstPassGo_inv tr sr (trackLengthSeconds tr sr) (trackLengthSeconds tr sr) 0
    ⟨[], none, false, none⟩ (by simp) (by simp)).1 p hp).1

/-- Running `processCase` a second time changes nothing: a case that
persisted segments is skipped through its marker, and a case that
persisted none recomputes the same empty result and persists nothing. -/
lemma processCase_idem (tr : Track) (sr caseid : Nat) (st0 st1 : PersistState)
    (h : processCase tr sr caseid st0 = .ok st1) :
    processCase tr sr caseid st1 = .ok st1 := by
  unfold processCase at h ⊢
  by_cases hc : areCaseSegmentsCached st0 caseid = true
  · rw [if_pos hc] at h
    have hst : st0 = st1 := by simpa using h
    subst hst
    rw [if_pos hc]
  · rw [if_neg hc] at h
    cases hex : extractSegmentsCase tr sr with
    | error e => rw [hex] at h; cases h
    | ok pn =>
      simp only [hex] at h ⊢
      have hst : saveCaseSegments st0 caseid pn.1 pn.2 = st1 := by simpa using h
      by_cases hempty : pn.1 = [] ∧ pn.2 = []
      · have hsave0 : saveCaseSegments st0 caseid pn.1 pn.2 = st0 := by
          unfold saveCaseSegments
          rw [if_pos hempty]
        have hst01 : st0 = st1 := by rw [← hst, hsave0]
        subst hst01
        rw [if_neg hc]
        have hsave1 : saveCaseSegments st0 caseid pn.1 pn.2 = st0 := hsave0
        simp [hsave1]
      · have hmem : caseid ∉ st0.markers := by
          intro hmem
          exact hc (by simpa [areCaseSegmentsCached] using hmem)
        have hsave0 : saveCaseSegments st0 caseid pn.1 pn.2
            = { markers := caseid :: st0.markers,
                files := st0.files ++ pn.1.map (fun p => (caseid, p.1, p.2.2, true))
                                  ++ pn.2.map (fun n => (caseid, (n.1 : ℤ), 0, false)) } := by
          unfold saveCaseSegments
          rw [if_neg hempty, if_neg hmem]
        have hmark : caseid ∈ st1.markers := by
          rw [← hst, hsave0]
          exact List.mem_cons_self _ _
        rw [if_pos (by simpa [areCaseSegmentsCached] using hmark)]

/-- The marker is set by a run exactly when it was already set or the
run produced at least one segment. -/
lemma processCase_marker (tr : Track) (sr caseid : Nat) (st0 st1 : PersistState)
    (h : processCase tr sr caseid st0 = .ok st1) :
    caseid ∈ st1.markers ↔
      (caseid ∈ st0.markers ∨ ∃ pn, extractSegmentsCase tr sr = .ok pn ∧
        ¬(pn.1 = [] ∧ pn.2 = [])) := by
  unfold processCase at h
  by_cases hc : areCaseSegmentsCached st0 caseid = true
  · rw [if_pos hc] at h
    have hst : st0 = st1 := by simpa using h
    subst hst
    have hmem : caseid ∈ st0.markers := by simpa [areCaseSegmentsCached] using hc
    simp [hmem]
  · rw [if_neg hc] at h
    have hmem : caseid ∉ st0.markers := fun hmem =>
      hc (by simpa [areCaseSegmentsCached] using hmem)
    cases hex : extractSegmentsCase tr sr with
    | error e => rw [hex] at h; cases h
    | ok pn =>
      simp only [hex] at h
      have hst : saveCaseSegments st0 caseid pn.1 pn.2 = st1 := by simpa using h
      by_cases hempty : pn.1 = [] ∧ pn.2 = []
      · have hsave0 : saveCaseSegments st0 caseid pn.1 pn.2 = st0 := by
          unfold saveCaseSegments
          rw [if_pos hempty]
        rw [← hst, hsave0]
        constructor
        · intro hk; exact Or.inl hk
        · rintro (hk | ⟨pn2, hpn2, hne⟩)
          · exact hk
          · have hpp : pn = pn2 := by simpa using hpn2
            subst hpp
            exact absurd hempty hne
      · have hsave0 : saveCaseSegments st0 caseid pn.1 pn.2
            = { markers := caseid :: st0.markers,
                files := st0.files ++ pn.1.map (fun p => (caseid, p.1, p.2.2, true))
                                  ++ pn.2.map (fun n => (caseid, (n.1 : ℤ), 0, false)) } := by
          unfold saveCaseSegments
          rw [if_neg hempty, if_neg hmem]
        rw [← hst, hsave0]
        simp only [List.mem_cons]
        constructor
        · intro _; exact Or.inr ⟨pn, rfl, hempty⟩
        · intro _; exact Or.inl (by simp)

/-- Below-threshold test refuted by a known high mean. -/
lemma meanLT_false_of (tr : Track) (lo hi : Nat) (c x : ℚ)
    (h : nanmean tr lo hi = some x) (hx : c ≤ x) : meanLT tr lo hi c = false := by
  rw [meanLT_of_nanmean tr lo hi c x h]
  simpa using not_lt.mpr hx

/-- Below-threshold test confirmed by a known low mean. -/
lemma meanLT_true_of (tr : Track) (lo hi : Nat) (c x : ℚ)
    (h : nanmean tr lo hi = some x) (hx : x < c) : meanLT tr lo hi c = true := by
  rw [meanLT_of_nanmean tr lo hi c x h]
  simpa using hx

/-- At-least test refuted by a known low mean. -/
lemma meanGE_false_of (tr : Track) (lo hi : Nat) (c x : ℚ)
    (h : nanmean tr lo hi = some x) (hx : x < c) : meanGE tr lo hi c = false := by
  rw [meanGE_of_nanmean tr lo hi c x h]
  simpa using not_le.mpr hx

/-- At-least test confirmed by a known high mean. -/
lemma meanGE_true_of (tr : Track) (lo hi : Nat) (c x : ℚ)
    (h : nanmean tr lo hi = some x) (hx : c ≤ x) : meanGE tr lo hi c = true := by
  rw [meanGE_of_nanmean tr lo hi c x h]
  simpa using hx

/-- Sample value of a step track below the first boundary. -/
lemma stepTrack_sample_lo (a b : Nat) (v1 v2 v3 : ℚ) (len s : Nat) (h : s < a) :
    (stepTrack a b v1 v2 v3 len).samples s = some v1 := by
  simp [stepTrack, h]

/-- Sample value of a step track between the boundaries. -/
lemma stepTrack_sample_mid (a b : Nat) (v1 v2 v3 : ℚ) (len s : Nat)
    (h1 : a ≤ s) (h2 : s < b) :
    (stepTrack a b v1 v2 v3 len).samples s = some v2 := by
  simp [stepTrack, Nat.not_lt.mpr h1, h2]

/-- Sample value of a step track at or beyond the second boundary. -/
lemma stepTrack_sample_hi (a b : Nat) (v1 v2 v3 : ℚ) (len s : Nat)
    (h1 : a ≤ s) (h2 : b ≤ s) :
    (stepTrack a b v1 v2 v3 len).samples s = some v3 := by
  simp [stepTrack, Nat.not_lt.mpr h1, Nat.not_lt.mpr h2]

/-- Mean of any in-range window of a constant track. -/
lemma constTrack_nanmean (v : ℚ) (len lo hi : Nat) (hlo : lo < hi) (hlen : hi ≤ len) :
    nanmean (constTrack v len) lo hi = some v := by
  apply nanmean_const _ _ _ _ hlo hlen
  intro k _ _
  rfl

/-- Windows of scenario 1 lying entirely in the first high region. -/
lemma s1_mean_regionA (lo hi : Nat) (hlo : lo < hi) (hhi : hi ≤ 300) :
    nanmean scenario1 lo hi = some 70 := by
  apply nanmean_const _ _ _ _ hlo (by simp [scenario1, stepTrack]; omega)
  intro k hk1 hk2
  exact stepTrack_sample_lo 300 420 70 50 70 3600 k (by omega)

/-- Windows of scenario 1 spanning the drop at second 300. -/
lemma s1_mean_regionB (lo hi : Nat) (hlo1 : lo ≤ 300) (hlo2 : 300 ≤ hi) (hlo : lo < hi)
    (hhi : hi ≤ 420) :
    nanmean scenario1 lo hi
      = some ((((300 - lo : Nat) : ℚ) * 70 + ((hi - 300 : Nat) : ℚ) * 50)
          / ((hi - lo : Nat) : ℚ)) := by
  apply nanmean_two_const scenario1 lo 300 hi 70 50 hlo1 hlo2 hlo
    (by simp [scenario1, stepTrack]; omega)
  · intro k hk1 hk2
    exact stepTrack_sample_lo 300 420 70 50 70 3600 k (by omega)
  · intro k hk1 hk2
    exact stepTrack_sample_mid 300 420 70 50 70 3600 k (by omega) (by omega)

/-- Windows of scenario 1 lying entirely in the low region. -/
lemma s1_mean_regionC (lo hi : Nat) (hlo1 : 300 ≤ lo) (hlo : lo < hi) (hhi : hi ≤ 420) :
    nanmean scenario1 lo hi = some 50 := by
  apply nanmean_const _ _ _ _ hlo (by simp [scenario1, stepTrack]; omega)
  intro k hk1 hk2
  exact stepTrack_sample_mid 300 420 70 50 70 3600 k (by omega) (by omega)

/-- Windows of scenario 1 spanning the recovery at second 420. -/
lemma s1_mean_regionD (lo hi : Nat) (hlo1 : 300 ≤ lo) (hlo2 : lo ≤ 420) (hmid : 420 ≤ hi)
    (hlo : lo < hi) (hhi : hi ≤ 3600) :
    nanmean scenario1 lo hi
      = some ((((420 - lo : Nat) : ℚ) * 50 + ((hi - 420 : Nat) : ℚ) * 70)
          / ((hi - lo : Nat) : ℚ)) := by
  apply nanmean_two_const scenario1 lo 420 hi 50 70 hlo2 hmid hlo
    (by simp [scenario1, stepTrack]; omega)
  · intro k hk1 hk2
    exact stepTrack_sample_mid 300 420 70 50 70 3600 k (by omega) (by omega)
  · intro k hk1 hk2
    exact stepTrack_sample_hi 300 420 70 50 70 3600 k (by omega) (by omega)

/-- Windows of scenario 1 lying entirely in the final high region. -/
lemma s1_mean_regionE (lo hi : Nat) (hlo1 : 420 ≤ lo) (hlo : lo < hi) (hhi : hi ≤ 3600) :
    nanmean scenario1 lo hi = some 70 := by
  apply nanmean_const _ _ _ _ hlo (by simp [scenario1, stepTrack]; omega)
  intro k hk1 hk2
  exact stepTrack_sample_hi 300 420 70 50 70 3600 k (by omega) (by omega)

/-- In scenario 1 the very first window is already live. -/
lemma s1_live : meanGE scenario1 0 60 65 = true :=
  meanGE_true_of _ _ _ _ _ (s1_mean_regionA 0 60 (by omega) (by omega)) (by norm_num)

/-- In scenario 1 no window before cursor 256 drops below 65. -/
lemma s1_no_event_before (i : Nat) (h : i ≤ 255) : meanLT scenario1 i (i + 60) 65 = false := by
  rcases le_or_lt (i + 60) 300 with hA | hB
  · exact meanLT_false_of _ _ _ _ _ (s1_mean_regionA i (i + 60) (by omega) hA) (by norm_num)
  · refine meanLT_false_of _ _ _ _ _
      (s1_mean_regionB i (i + 60) (by omega) (by omega) (by omega) (by omega)) ?_
    have c1 : ((300 - i : Nat) : ℚ) = 300 - (i : ℚ) := by
      have : i ≤ 300 := by omega
      push_cast [this]
      ring
    have c2 : ((i + 60 - 300 : Nat) : ℚ) = (i : ℚ) - 240 := by
      have h240 : 240 ≤ i := by omega
      rw [show i + 60 - 300 = i - 240 by omega]
      push_cast [h240]
      ring
    have c3 : ((i + 60 - i : Nat) : ℚ) = 60 := by
      rw [show i + 60 - i = 60 by omega]
      norm_num
    have hi255 : (i : ℚ) ≤ 255 := by exact_mod_cast h
    rw [c1, c2, c3, le_div_iff₀ (by norm_num : (0 : ℚ) < 60)]
    linarith

/-- In scenario 1 the window at cursor 256 is the first below 65. -/
lemma s1_event_onset : meanLT scenario1 256 316 65 = true := by
  refine meanLT_true_of _ _ _ _ _
    (s1_mean_regionB 256 316 (by omega) (by omega) (by omega) (by omega)) ?_
  norm_num

/-- In scenario 1 the recovery search stays below 65 for `j` up to 464. -/
lemma s1_no_recovery_before (j : Nat) (h1 : 316 ≤ j) (h2 : j ≤ 464) :
    meanGE scenario1 (j - 60) j 65 = false := by
  rcases le_or_lt j 360 with hB | hCD
  · refine meanGE_false_of _ _ _ _ _
      (s1_mean_regionB (j - 60) j (by omega) (by omega) (by omega) (by omega)) ?_
    have c1 : ((300 - (j - 60) : Nat) : ℚ) = 360 - (j : ℚ) := by
      have h60 : 60 ≤ j := by omega
      have : 300 - (j - 60) = 360 - j := by omega
      rw [this]
      have : j ≤ 360 := hB
      push_cast [this]
      ring
    have c2 : ((j - 300 : Nat) : ℚ) = (j : ℚ) - 300 := by
      have : 300 ≤ j := by omega
      push_cast [this]
      ring
    have c3 : ((j - (j - 60) : Nat) : ℚ) = 60 := by
      rw [show j - (j - 60) = 60 by omega]
      norm_num
    have hj : 316 ≤ (j : ℚ) := by exact_mod_cast h1
    rw [c1, c2, c3, div_lt_iff₀ (by norm_num : (0 : ℚ) < 60)]
    linarith
  · rcases le_or_lt j 420 with hC | hD
    · exact meanGE_false_of _ _ _ _ _
        (s1_mean_regionC (j - 60) j (by omega) (by omega) (by omega)) (by norm_num)
    · refine meanGE_false_of _ _ _ _ _
        (s1_mean_regionD (j - 60) j (by omega) (by omega) (by omega) (by omega) (by omega)) ?_
      have c1 : ((420 - (j - 60) : Nat) : ℚ) = 480 - (j : ℚ) := by
        have : 420 - (j - 60) = 480 - j := by omega
        rw [this]
        have : j ≤ 480 := by omega
        push_cast [this]
        ring
      have c2 : ((j - 420 : Nat) : ℚ) = (j : ℚ) - 420 := by
        have : 420 ≤ j := by omega
        push_cast [this]
        ring
      have c3 : ((j - (j - 60) : Nat) : ℚ) = 60 := by
        rw [show j - (j - 60) = 60 by omega]
        norm_num
      have hj : (j : ℚ) ≤ 464 := by exact_mod_cast h2
      rw [c1, c2, c3, div_lt_iff₀ (by norm_num : (0 : ℚ) < 60)]
      linarith

/-- In scenario 1 the recovery lands exactly at `j = 465`. -/
lemma s1_recovery : meanGE scenario1 405 465 65 = true := by
  refine meanGE_true_of _ _ _ _ _
    (s1_mean_regionD 405 465 (by omega) (by omega) (by omega) (by omega) (by omega)) ?_
  norm_num

/-- In scenario 1 no window after the event drops below 65. -/
lemma s1_tail (i : Nat) (h1 : 465 ≤ i) (h2 : i ≤ 3539) :
    meanLT scenario1 i (i + 60) 65 = false :=
  meanLT_false_of _ _ _ _ _ (s1_mean_regionE i (i + 60) (by omega) (by omega) (by omega))
    (by norm_num)

/-- Second-pass step: the candidate window overlaps an event, the
cursor jumps past the latest overlapping end. -/
lemma secondPassGo_ffwd_step (tr : Track) (sr L : Nat) (events : List (Nat × Nat))
    (jVar : Option Nat) (fuel i v : Nat) (acc : List (Nat × Nat))
    (hg : i + 1800 < L)
    (hscan : overlapScan events ((i : ℤ), ((i + 1800 : Nat) : ℤ)) = some v) :
    secondPassGo tr sr L events jVar (fuel + 1) i acc
      = secondPassGo tr sr L events jVar fuel (v + 1) acc := by
  rw [secondPassGo_succ_eq, if_pos hg]
  simp only [hscan]

/-- Second-pass step: clear window, high mean, but the stale forward
window overlaps an event, so nothing is recorded. -/
lemma secondPassGo_stale_reject_step (tr : Track) (sr L : Nat) (events : List (Nat × Nat))
    (fuel i j v : Nat) (acc : List (Nat × Nat))
    (hg : i + 1800 < L)
    (hscan : overlapScan events ((i : ℤ), ((i + 1800 : Nat) : ℤ)) = none)
    (hm : meanGE tr (i * sr) ((i + 1800) * sr) 75 = true)
    (hfwd : overlapScan events ((j : ℤ) - 1800, (j : ℤ)) = some v) :
    secondPassGo tr sr L events (some j) (fuel + 1) i acc
      = secondPassGo tr sr L events (some j) fuel (i + 10) acc := by
  rw [secondPassGo_succ_eq, if_pos hg]
  simp only [hscan, hm, if_true, hfwd]

/-- Second-pass step: clear window, high mean, stale forward window
also clear, so the window is recorded. -/
lemma secondPassGo_record_step (tr : Track) (sr L : Nat) (events : List (Nat × Nat))
    (fuel i j : Nat) (acc : List (Nat × Nat))
    (hg : i + 1800 < L)
    (hscan : overlapScan events ((i : ℤ), ((i + 1800 : Nat) : ℤ)) = none)
    (hm : meanGE tr (i * sr) ((i + 1800) * sr) 75 = true)
    (hfwd : overlapScan events ((j : ℤ) - 1800, (j : ℤ)) = none) :
    secondPassGo tr sr L events (some j) (fuel + 1) i acc
      = secondPassGo tr sr L events (some j) fuel (i + 1800 + 1) (acc ++ [(i, i + 1800)]) := by
  rw [secondPassGo_succ_eq, if_pos hg]
  simp only [hscan, hm, if_true, hfwd]

/-- Second-pass step: clear window with a mean below 75, the cursor
strides on by 10 seconds. -/
lemma secondPassGo_cold_step (tr : Track) (sr L : Nat) (events : List (Nat × Nat))
    (jVar : Option Nat) (fuel i : Nat) (acc : List (Nat × Nat))
    (hg : i + 1800 < L)
    (hscan : overlapScan events ((i : ℤ), ((i + 1800 : Nat) : ℤ)) = none)
    (hm : meanGE tr (i * sr) ((i + 1800) * sr) 75 = false) :
    secondPassGo tr sr L events jVar (fuel + 1) i acc
      = secondPassGo tr sr L events jVar fuel (i + 10) acc := by
  rw [secondPassGo_succ_eq, if_pos hg]
  simp only [hscan, hm, Bool.false_eq_true, if_false]

/-- Second-pass step: clear window, high mean, `j` never assigned: the
Python `NameError`. -/
lemma secondPassGo_error_step (tr : Track) (sr L : Nat) (events : List (Nat × Nat))
    (fuel i : Nat) (acc : List (Nat × Nat))
    (hg : i + 1800 < L)
    (hscan : overlapScan events ((i : ℤ), ((i + 1800 : Nat) : ℤ)) = none)
    (hm : meanGE tr (i * sr) ((i + 1800) * sr) 75 = true) :
    secondPassGo tr sr L events none (fuel + 1) i acc = .error () := by
  rw [secondPassGo_succ_eq, if_pos hg]
  simp only [hscan, hm, if_true]

/-- Windows of the stale-variable track in the first high region. -/
lemma st_mean_regionA (lo hi : Nat) (hlo : lo < hi) (hhi : hi ≤ 1840) :
    nanmean staleTrack lo hi = some 100 := by
  apply nanmean_const _ _ _ _ hlo (by simp [staleTrack, stepTrack]; omega)
  intro k hk1 hk2
  exact stepTrack_sample_lo 1840 1900 100 0 100 1940 k (by omega)

/-- Windows of the stale-variable track spanning the drop at 1840. -/
lemma st_mean_regionB (lo hi : Nat) (hlo1 : lo ≤ 1840) (hlo2 : 1840 ≤ hi) (hlo : lo < hi)
    (hhi : hi ≤ 1900) :
    nanmean staleTrack lo hi
      = some ((((1840 - lo : Nat) : ℚ) * 100 + ((hi - 1840 : Nat) : ℚ) * 0)
          / ((hi - lo : Nat) : ℚ)) := by
  apply nanmean_two_const staleTrack lo 1840 hi 100 0 hlo1 hlo2 hlo
    (by simp [staleTrack, stepTrack]; omega)
  · intro k hk1 hk2
    exact stepTrack_sample_lo 1840 1900 100 0 100 1940 k (by omega)
  · intro k hk1 hk2
    exact stepTrack_sample_mid 1840 1900 100 0 100 1940 k (by omega) (by omega)

/-- Windows of the stale-variable track spanning the recovery at 1900. -/
lemma st_mean_regionD (lo hi : Nat) (hlo1 : 1840 ≤ lo) (hlo2 : lo ≤ 1900) (hmid : 1900 ≤ hi)
    (hlo : lo < hi) (hhi : hi ≤ 1940) :
    nanmean staleTrack lo hi
      = some ((((1900 - lo : Nat) : ℚ) * 0 + ((hi - 1900 : Nat) : ℚ) * 100)
          / ((hi - lo : Nat) : ℚ)) := by
  apply nanmean_two_const staleTrack lo 1900 hi 0 100 hlo2 hmid hlo
    (by simp [staleTrack, stepTrack]; omega)
  · intro k hk1 hk2
    exact stepTrack_sample_mid 1840 1900 100 0 100 1940 k (by omega) (by omega)
  · intro k hk1 hk2
    exact stepTrack_sample_hi 1840 1900 100 0 100 1940 k (by omega) (by omega)

/-- The stale-variable track is live from its very first window. -/
lemma st_live : meanGE staleTrack 0 60 65 = true :=
  meanGE_true_of _ _ _ _ _ (st_mean_regionA 0 60 (by omega) (by omega)) (by norm_num)

/-- No window of the stale-variable track before cursor 1802 drops
below 65. -/
lemma st_no_event_before (i : Nat) (h : i ≤ 1801) :
    meanLT staleTrack i (i + 60) 65 = false := by
  rcases le_or_lt (i + 60) 1840 with hA | hB
  · exact meanLT_false_of _ _ _ _ _ (st_mean_regionA i (i + 60) (by omega) hA) (by norm_num)
  · refine meanLT_false_of _ _ _ _ _
      (st_mean_regionB i (i + 60) (by omega) (by omega) (by omega) (by omega)) ?_
    have c1 : ((1840 - i : Nat) : ℚ) = 1840 - (i : ℚ) := by
      have : i ≤ 1840 := by omega
      push_cast [this]
      ring
    have c3 : ((i + 60 - i : Nat) : ℚ) = 60 := by
      rw [show i + 60 - i = 60 by omega]
      norm_num
    have hle : (i : ℚ) ≤ 1801 := by exact_mod_cast h
    rw [c1, c3, le_div_iff₀ (by norm_num : (0 : ℚ) < 60)]
    linarith

/-- The window at cursor 1802 of the stale-variable track is the first
below 65. -/
lemma st_event_onset : meanLT staleTrack 1802 1862 65 = true := by
  refine meanLT_true_of _ _ _ _ _
    (st_mean_regionB 1802 1862 (by omega) (by omega) (by omega) (by omega)) ?_
  norm_num

/-- The recovery search of the stale-variable track stays below 65 for
`j` up to 1938. -/
lemma st_no_recovery_before (j : Nat) (h1 : 1862 ≤ j) (h2 : j ≤ 1938) :
    meanGE staleTrack (j - 60) j 65 = false := by
  rcases le_or_lt j 1900 with hB | hD
  · refine meanGE_false_of _ _ _ _ _
      (st_mean_regionB (j - 60) j (by omega) (by omega) (by omega) (by omega)) ?_
    have c1 : ((1840 - (j - 60) : Nat) : ℚ) = 1900 - (j : ℚ) := by
      have : 1840 - (j - 60) = 1900 - j := by omega
      rw [this]
      have : j ≤ 1900 := hB
      push_cast [this]
      ring
    have c3 : ((j - (j - 60) : Nat) : ℚ) = 60 := by
      rw [show j - (j - 60) = 60 by omega]
      norm_num
    have hj : 1862 ≤ (j : ℚ) := by exact_mod_cast h1
    rw [c1, c3, div_lt_iff₀ (by norm_num : (0 : ℚ) < 60)]
    linarith
  · refine meanGE_false_of _ _ _ _ _
      (st_mean_regionD (j - 60) j (by omega) (by omega) (by omega) (by omega) (by omega)) ?_
    have c1 : ((1900 - (j - 60) : Nat) : ℚ) = 1960 - (j : ℚ) := by
      have : 1900 - (j - 60) = 1960 - j := by omega
      rw [this]
      have : j ≤ 1960 := by omega
      push_cast [this]
      ring
    have c2 : ((j - 1900 : Nat) : ℚ) = (j : ℚ) - 1900 := by
      have : 1900 ≤ j := by omega
      push_cast [this]
      ring
    have c3 : ((j - (j - 60) : Nat) : ℚ) = 60 := by
      rw [show j - (j - 60) = 60 by omega]
      norm_num
    have hj : (j : ℚ) ≤ 1938 := by exact_mod_cast h2
    rw [c1, c2, c3, div_lt_iff₀ (by norm_num : (0 : ℚ) < 60)]
    linarith

/-- The recovery of the stale-variable track lands at `j = 1939`. -/
lemma st_recovery : meanGE staleTrack 1879 1939 65 = true := by
  refine meanGE_true_of _ _ _ _ _
    (st_mean_regionD 1879 1939 (by omega) (by omega) (by omega) (by omega) (by omega)) ?_
  norm_num

/-- The candidate clean window `[0, 1800)` of the stale-variable track
has mean 100, well above 75. -/
lemma st_clean_window : meanGE staleTrack 0 1800 75 = true :=
  meanGE_true_of _ _ _ _ _ (st_mean_regionA 0 1800 (by omega) (by omega)) (by norm_num)

/-- Every window of the 80 mmHg constant track stays at or above 65. -/
lemma c80_no_event (i : Nat) (h : i ≤ 1740) :
    meanLT (constTrack 80 1801) i (i + 60) 65 = false :=
  meanLT_false_of _ _ _ _ _ (constTrack_nanmean 80 1801 i (i + 60) (by omega) (by omega))
    (by norm_num)

/-- The 80 mmHg constant track is live from its first window. -/
lemma c80_live : meanGE (constTrack 80 1801) 0 60 65 = true :=
  meanGE_true_of _ _ _ _ _ (constTrack_nanmean 80 1801 0 60 (by omega) (by omega))
    (by norm_num)

/-- The candidate clean window of the 80 mmHg constant track is hot. -/
lemma c80_clean : meanGE (constTrack 80 1801) 0 1800 75 = true :=
  meanGE_true_of _ _ _ _ _ (constTrack_nanmean 80 1801 0 1800 (by omega) (by omega))
    (by norm_num)

/-- The all-zero track drops below 65 at its first window. -/
lemma c0_low : meanLT (constTrack 0 70) 0 60 65 = true :=
  meanLT_true_of _ _ _ _ _ (constTrack_nanmean 0 70 0 60 (by omega) (by omega))
    (by norm_num)

/-- No window of the all-zero track ever reaches 65. -/
lemma c0_no_recovery (j : Nat) (h1 : 60 ≤ j) (h2 : j ≤ 70) :
    meanGE (constTrack 0 70) (j - 60) j 65 = false :=
  meanGE_false_of _ _ _ _ _ (constTrack_nanmean 0 70 (j - 60) j (by omega) (by omega))
    (by norm_num)

/-- Full first pass of scenario 1: the event opens at 256 (the first
cursor whose forward window mean drops below 65) and closes at 464
(one before the first recovered trailing window), and the loop
variable `j` is left at 465. -/
lemma scenario1_firstPass :
    firstPass scenario1 1 = ⟨[(256, 464)], some 0, true, some 465⟩ := by
  have hrec : findRecovery scenario1 1 316 3600 none = (some 464, some 465) := by
    unfold findRecovery
    refine Eq.trans (findRecoveryGo_skip scenario1 1 148 (3600 - 316) 316 none (by norm_num)
      (fun t ht1 ht2 => by simpa using s1_no_recovery_before t (by omega) (by omega))) ?_
    refine Eq.trans (findRecoveryGo_hit scenario1 1 3134 465 (some 464)
      (by simpa using s1_recovery)) ?_
    rfl
  simp only [firstPass]
  rw [show trackLengthSeconds scenario1 1 = 3600 from rfl]
  refine Eq.trans (firstPassGo_start_step scenario1 1 3600 3599 0 ⟨[], none, false, none⟩
    (by norm_num) rfl (by simpa using s1_live)) ?_
  refine Eq.trans (firstPassGo_skip scenario1 1 3600 ⟨[], some 0, true, none⟩ rfl 255 3599 1
    (by norm_num) (by norm_num)
    (fun t ht1 ht2 => by simpa using s1_no_event_before t (by omega))) ?_
  refine Eq.trans (firstPassGo_event_step scenario1 1 3600 3343 256 ⟨[], some 0, true, none⟩
    464 (some 465) (by norm_num) rfl (by simpa using s1_event_onset) hrec) ?_
  refine Eq.trans (firstPassGo_skip scenario1 1 3600 ⟨[(256, 464)], some 0, true, some 465⟩ rfl
    3075 3343 465 (by norm_num) (by norm_num)
    (fun t ht1 ht2 => by simpa using s1_tail t (by omega) (by omega))) ?_
  exact firstPassGo_end scenario1 1 3600 268 3540 _ (by norm_num)

/-- Full first pass of the stale-variable track: one event `(1802,
1938)`, with the loop variable `j` left at 1939. -/
lemma staleTrack_firstPass :
    firstPass staleTrack 1 = ⟨[(1802, 1938)], some 0, true, some 1939⟩ := by
  have hrec : findRecovery staleTrack 1 1862 1940 none = (some 1938, some 1939) := by
    unfold findRecovery
    refine Eq.trans (findRecoveryGo_skip staleTrack 1 76 (1940 - 1862) 1862 none (by norm_num)
      (fun t ht1 ht2 => by simpa using st_no_recovery_before t (by omega) (by omega))) ?_
    refine Eq.trans (findRecoveryGo_hit staleTrack 1 0 1939 (some 1938)
      (by simpa using st_recovery)) ?_
    rfl
  simp only [firstPass]
  rw [show trackLengthSeconds staleTrack 1 = 1940 from rfl]
  refine Eq.trans (firstPassGo_start_step staleTrack 1 1940 1939 0 ⟨[], none, false, none⟩
    (by norm_num) rfl (by simpa using st_live)) ?_
  refine Eq.trans (firstPassGo_skip staleTrack 1 1940 ⟨[], some 0, true, none⟩ rfl 1801 1939 1
    (by norm_num) (by norm_num)
    (fun t ht1 ht2 => by simpa using st_no_event_before t (by omega))) ?_
  refine Eq.trans (firstPassGo_event_step staleTrack 1 1940 137 1802 ⟨[], some 0, true, none⟩
    1938 (some 1939) (by norm_num) rfl (by simpa using st_event_onset) hrec) ?_
  exact firstPassGo_end staleTrack 1 1940 137 1939 _ (by norm_num)

/-- Second pass of the stale-variable track: the candidate window
`[0, 1800)` overlaps no event and has mean 100, yet the stale forward
check through `j = 1939` reports an overlap, so no clean window is ever
recorded. -/
lemma staleTrack_secondPass :
    secondPass staleTrack 1 [(1802, 1938)] 0 (some 1939) = .ok [] := by
  simp only [secondPass]
  rw [show trackLengthSeconds staleTrack 1 = 1940 from rfl]
  refine Eq.trans (secondPassGo_stale_reject_step staleTrack 1 1940 [(1802, 1938)] 1939 0 1939
    1938 [] (by norm_num) (by rfl) (by simpa using st_clean_window) (by rfl)) ?_
  refine Eq.trans (secondPassGo_ffwd_step staleTrack 1 1940 [(1802, 1938)] (some 1939) 1938 10
    1938 [] (by norm_num) (by rfl)) ?_
  exact secondPassGo_end staleTrack 1 1940 [(1802, 1938)] (some 1939) 1938 1939 [] (by norm_num)

/-- Evaluation rule for the last three passes when the second pass
succeeds. -/
lemma extractFromFirstPass_ok (tr : Track) (sr : Nat) (fp : FirstPassState)
    (ws : List (Nat × Nat))
    (h : secondPass tr sr fp.iohEvents (fp.trackStartIndex.getD 0) fp.jVar = .ok ws) :
    extractFromFirstPass tr sr fp
      = .ok (thirdPass fp.iohEvents (fp.trackStartIndex.getD 0), fourthPassGo ws) := by
  unfold extractFromFirstPass
  rw [h]

/-- Evaluation rule for the last three passes when the second pass
fails with the `NameError`. -/
lemma extractFromFirstPass_error (tr : Track) (sr : Nat) (fp : FirstPassState)
    (h : secondPass tr sr fp.iohEvents (fp.trackStartIndex.getD 0) fp.jVar = .error ()) :
    extractFromFirstPass tr sr fp = .error () := by
  unfold extractFromFirstPass
  rw [h]

/-- The four passes of the stale-variable track: four positive
segments (one per lead time), no clean window, hence no negative
segment. -/
lemma staleTrack_extract :
    extractSegmentsCase staleTrack 1
      = .ok ([((1622 : ℤ), 1682, 3), (1502, 1562, 5), (1202, 1262, 10), (902, 962, 15)], []) := by
  rw [extractSegmentsCase, staleTrack_firstPass]
  rw [extractFromFirstPass_ok staleTrack 1 ⟨[(1802, 1938)], some 0, true, some 1939⟩ []
    staleTrack_secondPass]
  rfl

/-- Full first pass of the 80 mmHg constant track: live at 0, no
event, and the loop variable `j` never assigned. -/
lemma c80_firstPass : firstPass (constTrack 80 1801) 1 = ⟨[], some 0, true, none⟩ := by
  simp only [firstPass]
  rw [show trackLengthSeconds (constTrack 80 1801) 1 = 1801 from rfl]
  refine Eq.trans (firstPassGo_start_step (constTrack 80 1801) 1 1801 1800 0
    ⟨[], none, false, none⟩ (by norm_num) rfl (by simpa using c80_live)) ?_
  refine Eq.trans (firstPassGo_skip (constTrack 80 1801) 1 1801 ⟨[], some 0, true, none⟩ rfl
    1740 1800 1 (by norm_num) (by norm_num)
    (fun t ht1 ht2 => by simpa using c80_no_event t (by omega))) ?_
  exact firstPassGo_end (constTrack 80 1801) 1 1801 60 1741 _ (by norm_num)

/-- The recovery search of the all-zero track runs off the end of the
track without finding a recovered window. -/
lemma c0_findRecovery : findRecovery (constTrack 0 70) 1 60 70 none = (none, some 69) := by
  unfold findRecovery
  refine Eq.trans (findRecoveryGo_skip (constTrack 0 70) 1 9 (70 - 60) 60 none (by norm_num)
    (fun t ht1 ht2 => by simpa using c0_no_recovery t (by omega) (by omega))) ?_
  rfl

/-- C1: for every track and sample rate, the IOH events produced by
the first pass are in strictly increasing, non-overlapping order, and
every event `(start, end)` satisfies `end > start` and
`end - start >= 60`. -/
theorem C1_ioh_event_invariant (tr : Track) (srate : Nat) :
    List.Chain' (fun a b => a.2 < b.1) (firstPass tr srate).iohEvents ∧
    ∀ p ∈ (firstPass tr srate).iohEvents, p.1 < p.2 ∧ 60 ≤ p.2 - p.1 := by
  have h := firstPassGo_inv tr srate (trackLengthSeconds tr srate) (trackLengthSeconds tr srate)
    0 ⟨[], none, false, none⟩ (by simp) (by simp)
  unfold firstPass
  exact ⟨h.2, h.1⟩

/-- C2 counterexample: on the scenario-1 track (70 mmHg on `[0, 300)`,
50 on `[300, 420)`, 70 on `[420, 3600)`, one sample per second) the
first pass produces the single event `(256, 464)`, not `(300, 419)` as
the claim states: the onset fires as soon as the 60-second forward
window mean drops below 65 (cursor 256), and the event closes only
when a trailing window mean recovers to 65 (second 464). -/
theorem C2_scenario1_counterexample :
    (firstPass scenario1 1).iohEvents = [(256, 464)] ∧
    (firstPass scenario1 1).iohEvents ≠ [(300, 419)] := by
  rw [scenario1_firstPass]
  refine ⟨rfl, ?_⟩
  intro h
  simp at h

/-- C2 amended: on the scenario-1 track the first pass yields
`trackStartIndex = 0` and exactly one IOH event, equal to
`(256, 464)`. -/
theorem C2_scenario1_amended :
    (firstPass scenario1 1).trackStartIndex = some 0 ∧
    (firstPass scenario1 1).iohEvents = [(256, 464)] := by
  rw [scenario1_firstPass]
  exact ⟨rfl, rfl⟩

/-- C3: on the stale-variable track the second pass starts its scan at
cursor 0, the candidate window `[0, 1800)` overlaps no IOH event and
its mean is at or above 75, yet the pass records no clean window at
all: the forward re-check uses the stale first-pass variable
`j = 1939`, whose window `(139, 1939)` strictly contains the event
`(1802, 1938)`, so the recording branch is never reached. -/
theorem C3_stale_forward_check :
    (firstPass staleTrack 1).trackStartIndex.getD 0 = 0 ∧
    overlapScan (firstPass staleTrack 1).iohEvents ((0 : ℤ), ((0 + 1800 : Nat) : ℤ)) = none ∧
    meanGE staleTrack (0 * 1) ((0 + 1800) * 1) 75 = true ∧
    secondPass staleTrack 1 (firstPass staleTrack 1).iohEvents
      ((firstPass staleTrack 1).trackStartIndex.getD 0) (firstPass staleTrack 1).jVar
      = .ok [] := by
  refine ⟨?_, ?_, ?_, ?_⟩
  · rw [staleTrack_firstPass]
    rfl
  · rw [staleTrack_firstPass]
    rfl
  · simpa using st_clean_window
  · rw [staleTrack_firstPass]
    exact staleTrack_secondPass

/-- C4: for every track, every clean window recorded by a successful
second pass is exactly 1800 seconds long, fails the code overlap test
against every IOH event of the same case, and the windows come in
strictly increasing, non-overlapping order. -/
theorem C4_clean_window_invariant (tr : Track) (srate : Nat) (ws : List (Nat × Nat))
    (h : secondPass tr srate (firstPass tr srate).iohEvents
      ((firstPass tr srate).trackStartIndex.getD 0) (firstPass tr srate).jVar = .ok ws) :
    (∀ w ∈ ws, w.2 = w.1 + 1800 ∧
      ∀ e ∈ (firstPass tr srate).iohEvents,
        overlapsCode ((w.1 : ℤ), (w.2 : ℤ)) ((e.1 : ℤ), (e.2 : ℤ)) = false) ∧
    List.Chain' (fun a b => a.2 < b.1) ws := by
  unfold secondPass at h
  have hres := secondPassGo_inv tr srate (trackLengthSeconds tr srate)
    (firstPass tr srate).iohEvents (firstPass tr srate).jVar (firstPass_events_wf tr srate)
    (trackLengthSeconds tr srate) ((firstPass tr srate).trackStartIndex.getD 0) [] ws
    (by simp) (by simp) h
  exact hres

/-- C4 witness: the empty track runs the second pass to completion
with no window and no event. -/
theorem C4_witness :
    (secondPass emptyTrack 1 (firstPass emptyTrack 1).iohEvents
      ((firstPass emptyTrack 1).trackStartIndex.getD 0) (firstPass emptyTrack 1).jVar
      = .ok []) ∧
    ((∀ w ∈ ([] : List (Nat × Nat)), w.2 = w.1 + 1800 ∧
      ∀ e ∈ (firstPass emptyTrack 1).iohEvents,
        overlapsCode ((w.1 : ℤ), (w.2 : ℤ)) ((e.1 : ℤ), (e.2 : ℤ)) = false) ∧
    List.Chain' (fun a b => a.2 < b.1) ([] : List (Nat × Nat))) :=
  ⟨rfl, C4_clean_window_invariant emptyTrack 1 [] rfl⟩

/-- C5 counterexample: the code overlap predicate is not symmetric and
does not decide intersection of half-open intervals: it answers true
on `((0,5), (5,10))`, which do not intersect, false on the swapped
pair, and false on `((0,10), (5,10))`, which do intersect. -/
theorem C5_overlap_counterexample :
    overlapsCode ((0 : ℤ), 5) ((5 : ℤ), 10) = true ∧
    overlapsCode ((5 : ℤ), 10) ((0 : ℤ), 5) = false ∧
    ¬ halfOpenIntersects ((0 : ℤ), 5) ((5 : ℤ), 10) ∧
    halfOpenIntersects ((0 : ℤ), 10) ((5 : ℤ), 10) ∧
    overlapsCode ((0 : ℤ), 10) ((5 : ℤ), 10) = false := by
  refine ⟨by decide, by decide, by decide, by decide, by decide⟩

/-- C5 amended: the three-case predicate is reflexive on well-formed
intervals, and a true answer implies that the closed intervals meet;
it is neither symmetric nor equivalent to half-open intersection. -/
theorem C5_overlap_amended (a b : ℤ × ℤ) (ha : a.1 < a.2) (hb : b.1 < b.2) :
    (overlapsCode a b = true → a.1 ≤ b.2 ∧ b.1 ≤ a.2) ∧ overlapsCode a a = true := by
  unfold overlapsCode
  constructor
  · intro h
    simp only [Bool.or_eq_true, Bool.and_eq_true, decide_eq_true_eq] at h
    omega
  · simp only [Bool.or_eq_true, Bool.and_eq_true, decide_eq_true_eq]
    omega

/-- C5 witness: the amended statement at the well-formed pair
`(0, 2)`, `(1, 3)`. -/
theorem C5_witness :
    ((0 : ℤ) < 2 ∧ (1 : ℤ) < 3) ∧
    ((overlapsCode ((0 : ℤ), 2) ((1 : ℤ), 3) = true → (0 : ℤ) ≤ 3 ∧ (1 : ℤ) ≤ 2) ∧
      overlapsCode ((0 : ℤ), 2) ((0 : ℤ), 2) = true) :=
  ⟨by decide, C5_overlap_amended ((0 : ℤ), 2) ((1 : ℤ), 3) (by decide) (by decide)⟩

/-- C7: the fourth pass emits exactly three negative segments per
clean window, at offsets 600, 900 and 1200 from the window start, in
that order, and every emitted segment, positive or negative, is 60
seconds long. -/
theorem C7_segment_shape (ws events : List (Nat × Nat)) (tsi : Nat) :
    fourthPassGo ws
      = (ws.map (fun w =>
          [(w.1 + 600, (w.1 + 600) + 60), (w.1 + 900, (w.1 + 900) + 60),
           (w.1 + 1200, (w.1 + 1200) + 60)])).flatten ∧
    (∀ sg ∈ fourthPassGo ws, sg.2 - sg.1 = 60) ∧
    (∀ sg ∈ thirdPass events tsi, sg.2.1 - sg.1 = 60) := by
  refine ⟨fourthPassGo_eq_join ws, ?_, ?_⟩
  · intro sg hsg
    rw [fourthPassGo_eq_join ws] at hsg
    rw [List.mem_flatten] at hsg
    rcases hsg with ⟨l, hl, hsl⟩
    rw [List.mem_map] at hl
    rcases hl with ⟨w, _, hw⟩
    subst hw
    simp only [List.mem_cons, List.not_mem_nil, or_false] at hsl
    rcases hsl with h | h | h <;> subst h <;> omega
  · intro sg hsg
    obtain ⟨s, en, pw⟩ := sg
    rw [thirdPass, thirdPassGo_mem] at hsg
    rcases hsg with ⟨k, hk, _, _, hen, _⟩
    simp only []
    omega

/-- C8: a live step that opens an event whose recovery search reports
no recovered window appends nothing and returns at once, so no further
event is ever recorded. -/
theorem C8_unbounded_event_abandoned (tr : Track) (sr L fuel i : Nat) (st : FirstPassState)
    (j2 : Option Nat)
    (hg : i + 60 < L) (hst : st.started = true)
    (hm : meanLT tr (i * sr) ((i + 60) * sr) 65 = true)
    (hrec : findRecovery tr sr (i + 60) L st.jVar = (none, j2)) :
    firstPassGo tr sr L (fuel + 1) i st = { st with jVar := j2 } ∧
    (firstPassGo tr sr L (fuel + 1) i st).iohEvents = st.iohEvents := by
  have h := firstPassGo_abandon_step tr sr L fuel i st j2 hg hst hm hrec
  exact ⟨h, by rw [h]⟩

/-- C8 witness: the all-zero 70-second track opens an event at cursor
0 whose recovery never comes; nothing is recorded. -/
theorem C8_witness :
    ((0 : Nat) + 60 < 70 ∧
      meanLT (constTrack 0 70) (0 * 1) ((0 + 60) * 1) 65 = true ∧
      findRecovery (constTrack 0 70) 1 (0 + 60) 70
        (FirstPassState.mk [] (some 0) true none).jVar = (none, some 69)) ∧
    (firstPassGo (constTrack 0 70) 1 70 8 0 ⟨[], some 0, true, none⟩
      = { FirstPassState.mk [] (some 0) true none with jVar := some 69 } ∧
    (firstPassGo (constTrack 0 70) 1 70 8 0 ⟨[], some 0, true, none⟩).iohEvents
      = (FirstPassState.mk [] (some 0) true none).iohEvents) :=
  ⟨⟨by norm_num, by simpa using c0_low, c0_findRecovery⟩,
    C8_unbounded_event_abandoned (constTrack 0 70) 1 70 7 0 ⟨[], some 0, true, none⟩
      (some 69) (by norm_num) rfl (by simpa using c0_low) c0_findRecovery⟩

/-- C10: when the first pass never enters an event search (`j` is left
unassigned) and the second pass reaches a candidate window whose mean
is at or above 75, the pass evaluates the unassigned `j` and fails
(the Python `NameError`) instead of recording the window. -/
theorem C10_unassigned_j_error (tr : Track) (sr k : Nat)
    (hj : (firstPass tr sr).jVar = none)
    (hg : (firstPass tr sr).trackStartIndex.getD 0 + 10 * k + 1800 < trackLengthSeconds tr sr)
    (hm : meanGE tr (((firstPass tr sr).trackStartIndex.getD 0 + 10 * k) * sr)
      (((firstPass tr sr).trackStartIndex.getD 0 + 10 * k + 1800) * sr) 75 = true) :
    secondPass tr sr (firstPass tr sr).iohEvents ((firstPass tr sr).trackStartIndex.getD 0)
      (firstPass tr sr).jVar = .error () := by
  have hev : (firstPass tr sr).iohEvents = [] := firstPass_jVar_none_events tr sr hj
  rw [hev, hj]
  unfold secondPass
  exact secondPassGo_error_of_hot tr sr (trackLengthSeconds tr sr) k
    (trackLengthSeconds tr sr) ((firstPass tr sr).trackStartIndex.getD 0) []
    (by omega) hg hm

/-- C10 witness: the 80 mmHg constant track goes live at 0, never
opens an event, and its very first candidate clean window is hot, so
the second pass fails. -/
theorem C10_witness :
    ((firstPass (constTrack 80 1801) 1).jVar = none ∧
      (firstPass (constTrack 80 1801) 1).trackStartIndex.getD 0 + 10 * 0 + 1800
        < trackLengthSeconds (constTrack 80 1801) 1 ∧
      meanGE (constTrack 80 1801)
        (((firstPass (constTrack 80 1801) 1).trackStartIndex.getD 0 + 10 * 0) * 1)
        (((firstPass (constTrack 80 1801) 1).trackStartIndex.getD 0 + 10 * 0 + 1800) * 1)
        75 = true) ∧
    secondPass (constTrack 80 1801) 1 (firstPass (constTrack 80 1801) 1).iohEvents
      ((firstPass (constTrack 80 1801) 1).trackStartIndex.getD 0)
      (firstPass (constTrack 80 1801) 1).jVar = .error () := by
  have h1 : (firstPass (constTrack 80 1801) 1).jVar = none := by rw [c80_firstPass]
  have h2 : (firstPass (constTrack 80 1801) 1).trackStartIndex.getD 0 + 10 * 0 + 1800
      < trackLengthSeconds (constTrack 80 1801) 1 := by
    rw [c80_firstPass, show trackLengthSeconds (constTrack 80 1801) 1 = 1801 from rfl]
    norm_num
  have h3 : meanGE (constTrack 80 1801)
      (((firstPass (constTrack 80 1801) 1).trackStartIndex.getD 0 + 10 * 0) * 1)
      (((firstPass (constTrack 80 1801) 1).trackStartIndex.getD 0 + 10 * 0 + 1800) * 1)
      75 = true := by
    rw [c80_firstPass]
    simpa using c80_clean
  exact ⟨⟨h1, h2, h3⟩, C10_unassigned_j_error (constTrack 80 1801) 1 0 h1 h2 h3⟩

/-- C6: a triple is a positive segment of the third pass exactly when
it is the lead-time candidate of some event, 60 seconds long, starting
at or after 0 and at or after the live start, and, unless the event is
the first one, not overlapping the previous event under the code
overlap test. -/
theorem C6_positive_segment_characterization (events : List (Nat × Nat)) (tsi : Nat)
    (s en : ℤ) (pw : Nat) :
    (s, en, pw) ∈ thirdPass events tsi ↔
    ∃ k, ∃ hk : k < events.length, pw ∈ ALL_PREDICTION_WINDOWS ∧
      s = ((events.get ⟨k, hk⟩).1 : ℤ) - (pw : ℤ) * 60 ∧ en = s + 60 ∧
      0 ≤ s ∧ (tsi : ℤ) ≤ s ∧
      (k = 0 ∨ ∃ p, events.get? (k - 1) = some p ∧
        overlapsCode (s, en) ((p.1 : ℤ), (p.2 : ℤ)) = false) := by
  rw [thirdPass, thirdPassGo_mem]
  constructor
  · rintro ⟨k, hk, hpw, hs, hen, hacc⟩
    refine ⟨k, hk, hpw, hs, hen, ?_⟩
    rw [acceptPositive_true_iff] at hacc
    refine ⟨hacc.1, hacc.2.1, ?_⟩
    cases k with
    | zero => exact Or.inl rfl
    | succ m =>
      rcases hacc.2.2 with hnone | ⟨p, hp, hov⟩
      · exfalso
        have hnone2 : events.get? m = none := by simpa using hnone
        have hm : m < events.length := by omega
        rw [List.get?_eq_get hm] at hnone2
        cases hnone2
      · exact Or.inr ⟨p, by simpa using hp, hov⟩
  · rintro ⟨k, hk, hpw, hs, hen, hs0, hstsi, hprev⟩
    refine ⟨k, hk, hpw, hs, hen, ?_⟩
    rw [acceptPositive_true_iff]
    refine ⟨hs0, hstsi, ?_⟩
    cases k with
    | zero => exact Or.inl (by simp)
    | succ m =>
      rcases hprev with h0 | ⟨p, hp, hov⟩
      · exact absurd h0 (Nat.succ_ne_zero m)
      · exact Or.inr ⟨p, by simpa using hp, hov⟩

/-- Run of the stale-variable track through the case orchestrator:
four positive segments persisted, marker set. -/
lemma staleTrack_processCase :
    processCase staleTrack 1 7 ⟨[], []⟩
      = .ok ⟨[7], [(7, 1622, 3, true), (7, 1502, 5, true), (7, 1202, 10, true),
          (7, 902, 15, true)]⟩ := by
  unfold processCase
  rw [show areCaseSegmentsCached ⟨[], []⟩ 7 = false from rfl]
  simp only [Bool.false_eq_true, if_false]
  rw [staleTrack_extract]
  rfl

/-- C9 counterexample: a case whose run yields zero positive and zero
negative segments (the empty track) leaves the persistence state
untouched: the processed marker is not set, so on a second run the
case is not skipped, contrary to the claim. -/
theorem C9_zero_segment_counterexample :
    processCase emptyTrack 1 7 ⟨[], []⟩ = .ok ⟨[], []⟩ ∧
    areCaseSegmentsCached ⟨[], []⟩ 7 = false :=
  ⟨rfl, rfl⟩

/-- C9 amended: a second run of the pipeline on the same case returns
the state of the first run unchanged (zero additional segments are
persisted), and the marker is set after the first run exactly when it
was already set or the run produced at least one segment — a
zero-segment case leaves the marker unset and is re-scanned. -/
theorem C9_idempotent_amended (tr : Track) (sr caseid : Nat) (st0 st1 : PersistState)
    (h : processCase tr sr caseid st0 = .ok st1) :
    processCase tr sr caseid st1 = .ok st1 ∧
    (caseid ∈ st1.markers ↔ (caseid ∈ st0.markers ∨
      ∃ pn, extractSegmentsCase tr sr = .ok pn ∧ ¬(pn.1 = [] ∧ pn.2 = []))) :=
  ⟨processCase_idem tr sr caseid st0 st1 h, processCase_marker tr sr caseid st0 st1 h⟩

/-- C9 witness: the stale-variable track persists four positive
segments on its first run; the second run is a no-op skip with the
marker set. -/
theorem C9_witness :
    (processCase staleTrack 1 7 ⟨[], []⟩
      = .ok ⟨[7], [(7, 1622, 3, true), (7, 1502, 5, true), (7, 1202, 10, true),
          (7, 902, 15, true)]⟩) ∧
    (processCase staleTrack 1 7
        ⟨[7], [(7, 1622, 3, true), (7, 1502, 5, true), (7, 1202, 10, true),
          (7, 902, 15, true)]⟩
      = .ok ⟨[7], [(7, 1622, 3, true), (7, 1502, 5, true), (7, 1202, 10, true),
          (7, 902, 15, true)]⟩ ∧
    (7 ∈ (PersistState.mk [7] [(7, 1622, 3, true), (7, 1502, 5, true), (7, 1202, 10, true),
          (7, 902, 15, true)]).markers ↔
      (7 ∈ (PersistState.mk [] []).markers ∨
        ∃ pn, extractSegmentsCase staleTrack 1 = .ok pn ∧ ¬(pn.1 = [] ∧ pn.2 = [])))) :=
  ⟨staleTrack_processCase,
    C9_idempotent_amended staleTrack 1 7 ⟨[], []⟩ _ staleTrack_processCase⟩

end Seg
